import Mathlib

/-!
# Verification of the pyGeo `DVConstraints` module

This file gives a shallow embedding in Lean 4 of the geometric-constraint
kernels of `DVConstraints.py` (class `DVConstraints` and the constraint
containers `ThicknessConstraint`, `ThicknessToChordConstraint`,
`VolumeConstraint`, `LeTeConstraint`), and proves properties of the embedded
code.

Conventions:
* Machine floating point is embedded as exact arithmetic: the hexahedral
  volume kernel, the LE/TE Jacobian assembly and the bound-upcasting helpers
  are rational (`ℚ`); the Euclidean-distance based metrics use `ℝ` because
  they take square roots.
* A 3-vector (one geometric point, `numpy` array of shape `(3,)`) is the
  structure `V3`; `v.x` is the Python `v[0]`, etc.
* In-place accumulation into `numpy` arrays (the reverse-mode adjoints) is
  embedded by explicit state passing: each `_b` routine takes the current
  accumulator values and returns the updated ones.
* `raise Error(...)` is embedded as an `Except`/sum-type error result
  carrying the data interpolated into the message.
-/

/-- One 3-dimensional point / vector (a `numpy` array of shape `(3,)`).
`x`, `y`, `z` are indices `[0]`, `[1]`, `[2]`. -/
structure V3 where
  x : ℚ
  y : ℚ
  z : ℚ
deriving DecidableEq

/-- Index a `V3` by coordinate number, `v.coord i` is the Python `v[i]`. -/
def V3.coord (v : V3) : Fin 3 → ℚ
  | 0 => v.x
  | 1 => v.y
  | 2 => v.z

/-- Replace one scalar coordinate of a `V3` (the assignment `v[i] = t`). -/
def V3.updCoord (v : V3) : Fin 3 → ℚ → V3
  | 0, t => ⟨t, v.y, v.z⟩
  | 1, t => ⟨v.x, t, v.z⟩
  | 2, t => ⟨v.x, v.y, t⟩

/-- Componentwise addition of 3-vectors (`numpy` `+` on shape-(3,) arrays). -/
instance : Add V3 := ⟨fun u v => ⟨u.x + v.x, u.y + v.y, u.z + v.z⟩⟩

/-- The zero 3-vector (`numpy.zeros(3)`). -/
instance : Zero V3 := ⟨⟨0, 0, 0⟩⟩

/-- Negation of a 3-vector. -/
instance : Neg V3 := ⟨fun v => ⟨-v.x, -v.y, -v.z⟩⟩

/-- Division of a 3-vector by a scalar (`numpy` `v / q`). -/
def V3.divC (v : V3) (q : ℚ) : V3 := ⟨v.x / q, v.y / q, v.z / q⟩

theorem V3.add_def (u v : V3) :
    u + v = ⟨u.x + v.x, u.y + v.y, u.z + v.z⟩ := rfl

theorem V3.zero_def : (0 : V3) = ⟨0, 0, 0⟩ := rfl

theorem V3.neg_def (v : V3) : -v = ⟨-v.x, -v.y, -v.z⟩ := rfl

theorem V3.x_zero : (0 : V3).x = 0 := rfl

theorem V3.y_zero : (0 : V3).y = 0 := rfl

theorem V3.z_zero : (0 : V3).z = 0 := rfl

theorem V3.coord_add (u v : V3) (c : Fin 3) :
    (u + v).coord c = u.coord c + v.coord c := by
  fin_cases c <;> rfl

theorem V3.coord_zero (c : Fin 3) : (0 : V3).coord c = 0 := by
  fin_cases c <;> rfl

theorem V3.coord_divC (v : V3) (q : ℚ) (c : Fin 3) :
    (v.divC q).coord c = v.coord c / q := by
  fin_cases c <;> rfl

theorem V3.updCoord_coord_self (v : V3) (c : Fin 3) :
    v.updCoord c (v.coord c) = v := by
  fin_cases c <;> rfl

/-! ## The hexahedral volume kernel (`VolumeConstraint.volpym`,
`volpym_b`, `evalVolumeHex`, `evalVolumeHex_b`) -/

/-- `VolumeConstraint.volpym(a, b, c, d, p)`: signed volume contribution of the
square-based pyramid with base quad `a b c d` and apex `p` (times 6). -/
def volpym (a b c d p : V3) : ℚ :=
  (p.x - (1/4) * (a.x + b.x + c.x + d.x)) *
      ((a.y - c.y) * (b.z - d.z) - (a.z - c.z) * (b.y - d.y)) +
  (p.y - (1/4) * (a.y + b.y + c.y + d.y)) *
      ((a.z - c.z) * (b.x - d.x) - (a.x - c.x) * (b.z - d.z)) +
  (p.z - (1/4) * (a.z + b.z + c.z + d.z)) *
      ((a.x - c.x) * (b.y - d.y) - (a.y - c.y) * (b.x - d.x))

/-- The five adjoint accumulators handled by `volpym_b` (`ab, bb, cb, db, pb`). -/
structure Adj5 where
  ab : V3
  bb : V3
  cb : V3
  db : V3
  pb : V3
deriving DecidableEq

/-- `VolumeConstraint.volpym_b`: reverse-mode adjoint of `volpym` with seed
`volpymb = 1.0`.  The Python routine accumulates in place into the arrays
`ab .. pb`; here it takes their current values and returns the updated ones. -/
def volpym_b (a b c d p ab bb cb db pb : V3) : Adj5 :=
  let fourth : ℚ := 1/4
  let volpymb : ℚ := 1
  let tempb := ((a.y - c.y) * (b.z - d.z) - (a.z - c.z) * (b.y - d.y)) * volpymb
  let tempb0 := -(fourth * tempb)
  let tempb1 := (p.x - fourth * (a.x + b.x + c.x + d.x)) * volpymb
  let tempb2 := (b.z - d.z) * tempb1
  let tempb3 := (a.y - c.y) * tempb1
  let tempb4 := -((b.y - d.y) * tempb1)
  let tempb5 := -((a.z - c.z) * tempb1)
  let tempb6 := ((a.z - c.z) * (b.x - d.x) - (a.x - c.x) * (b.z - d.z)) * volpymb
  let tempb7 := -(fourth * tempb6)
  let tempb8 := (p.y - fourth * (a.y + b.y + c.y + d.y)) * volpymb
  let tempb9 := (b.x - d.x) * tempb8
  let tempb10 := (a.z - c.z) * tempb8
  let tempb11 := -((b.z - d.z) * tempb8)
  let tempb12 := -((a.x - c.x) * tempb8)
  let tempb13 := ((a.x - c.x) * (b.y - d.y) - (a.y - c.y) * (b.x - d.x)) * volpymb
  let tempb14 := -(fourth * tempb13)
  let tempb15 := (p.z - fourth * (a.z + b.z + c.z + d.z)) * volpymb
  let tempb16 := (b.y - d.y) * tempb15
  let tempb17 := (a.x - c.x) * tempb15
  let tempb18 := -((b.x - d.x) * tempb15)
  let tempb19 := -((a.y - c.y) * tempb15)
  { ab := ⟨ab.x + tempb16 + tempb11 + tempb0,
           ab.y + tempb18 + tempb7 + tempb2,
           ab.z + tempb14 + tempb9 + tempb4⟩
    bb := ⟨bb.x + tempb19 + tempb10 + tempb0,
           bb.y + tempb17 + tempb7 + tempb5,
           bb.z + tempb14 + tempb12 + tempb3⟩
    cb := ⟨cb.x + tempb0 - tempb11 - tempb16,
           cb.y + tempb7 - tempb18 - tempb2,
           cb.z + tempb14 - tempb9 - tempb4⟩
    db := ⟨db.x + tempb0 - tempb10 - tempb19,
           db.y + tempb7 - tempb17 - tempb5,
           db.z + tempb14 - tempb12 - tempb3⟩
    pb := ⟨pb.x + tempb, pb.y + tempb6, pb.z + tempb13⟩ }

/-- The per-call adjoint increments of `volpym_b` (its effect with all
accumulators seeded at zero). -/
def pyrG (a b c d p : V3) : Adj5 := volpym_b a b c d p 0 0 0 0 0

/-- `volpym_b` is a pure accumulator: it adds the zero-seed increments
`pyrG` onto whatever values the accumulator arrays currently hold. -/
theorem volpym_b_acc (a b c d p ab bb cb db pb : V3) :
    volpym_b a b c d p ab bb cb db pb =
      ⟨ab + (pyrG a b c d p).ab, bb + (pyrG a b c d p).bb,
       cb + (pyrG a b c d p).cb, db + (pyrG a b c d p).db,
       pb + (pyrG a b c d p).pb⟩ := by
  simp only [pyrG, volpym_b, V3.add_def, V3.zero_def, Adj5.mk.injEq, V3.mk.injEq]
  and_intros <;> ring

/-- `volpym` is jointly affine in a simultaneous shift of one fixed scalar
coordinate of all five of its points, and the shift coefficients are exactly
the adjoint increments computed by `volpym_b`.  This is the heart of claim C1:
`volpym_b` returns the exact partial derivatives of `volpym`. -/
theorem volpym_shift (a b c d p : V3) (i : Fin 3) (al be ga de rh : ℚ) :
    volpym (a.updCoord i (a.coord i + al)) (b.updCoord i (b.coord i + be))
        (c.updCoord i (c.coord i + ga)) (d.updCoord i (d.coord i + de))
        (p.updCoord i (p.coord i + rh)) =
      volpym a b c d p +
        al * (pyrG a b c d p).ab.coord i + be * (pyrG a b c d p).bb.coord i +
        ga * (pyrG a b c d p).cb.coord i + de * (pyrG a b c d p).db.coord i +
        rh * (pyrG a b c d p).pb.coord i := by
  fin_cases i <;>
    · simp only [volpym, V3.updCoord, V3.coord, pyrG, volpym_b, V3.add_def,
        V3.zero_def]
      ring

/-- The centroid `p = numpy.average([x0..x7], axis=0)` of the 8 hex corners. -/
def hexCentroid (x0 x1 x2 x3 x4 x5 x6 x7 : V3) : V3 :=
  ⟨(x0.x + x1.x + x2.x + x3.x + x4.x + x5.x + x6.x + x7.x) / 8,
   (x0.y + x1.y + x2.y + x3.y + x4.y + x5.y + x6.y + x7.y) / 8,
   (x0.z + x1.z + x2.z + x3.z + x4.z + x5.z + x6.z + x7.z) / 8⟩

/-- `VolumeConstraint.evalVolumeHex(x0..x7)`: decompose the hexahedron into 6
pyramids about the centroid, sum `volpym` over them, divide by 6. -/
def evalVolumeHex (x0 x1 x2 x3 x4 x5 x6 x7 : V3) : ℚ :=
  let p := hexCentroid x0 x1 x2 x3 x4 x5 x6 x7
  (volpym x0 x1 x3 x2 p + volpym x0 x2 x4 x6 p + volpym x0 x4 x5 x1 p +
      volpym x1 x5 x7 x3 p + volpym x2 x3 x7 x6 p + volpym x4 x6 x7 x5 p) / 6

/-- The un-divided pyramid sum of `evalVolumeHex` (the value before `V /= 6.0`). -/
def hexPyrSum (x0 x1 x2 x3 x4 x5 x6 x7 : V3) : ℚ :=
  let p := hexCentroid x0 x1 x2 x3 x4 x5 x6 x7
  volpym x0 x1 x3 x2 p + volpym x0 x2 x4 x6 p + volpym x0 x4 x5 x1 p +
    volpym x1 x5 x7 x3 p + volpym x2 x3 x7 x6 p + volpym x4 x6 x7 x5 p

theorem evalVolumeHex_eq_pyrSum (x0 x1 x2 x3 x4 x5 x6 x7 : V3) :
    evalVolumeHex x0 x1 x2 x3 x4 x5 x6 x7 = hexPyrSum x0 x1 x2 x3 x4 x5 x6 x7 / 6 :=
  rfl

/-- The eight adjoint accumulators of `evalVolumeHex_b` (`x0b .. x7b`). -/
structure Adj8 where
  x0b : V3
  x1b : V3
  x2b : V3
  x3b : V3
  x4b : V3
  x5b : V3
  x6b : V3
  x7b : V3
deriving DecidableEq

/-- `VolumeConstraint.evalVolumeHex_b`: reverse-mode adjoint of the un-divided
pyramid sum.  The Python routine accumulates in place into `x0b..x7b` (which
already hold contributions from neighbouring cells) and into a fresh local
`pb = numpy.zeros(3)`; each `volpym_b` call threads the current accumulator
values, then `pb /= 8.0` is added onto all 8 corner adjoints. -/
def evalVolumeHex_b (x0 x1 x2 x3 x4 x5 x6 x7 x0b x1b x2b x3b x4b x5b x6b x7b : V3) :
    Adj8 :=
  let p := hexCentroid x0 x1 x2 x3 x4 x5 x6 x7
  let r1 := volpym_b x0 x1 x3 x2 p x0b x1b x3b x2b 0
  let r2 := volpym_b x0 x2 x4 x6 p r1.ab r1.db x4b x6b r1.pb
  let r3 := volpym_b x0 x4 x5 x1 p r2.ab r2.cb x5b r1.bb r2.pb
  let r4 := volpym_b x1 x5 x7 x3 p r3.db r3.cb x7b r1.cb r3.pb
  let r5 := volpym_b x2 x3 x7 x6 p r2.bb r4.db r4.cb r2.db r4.pb
  let r6 := volpym_b x4 x6 x7 x5 p r3.bb r5.db r5.cb r4.bb r5.pb
  let pbf := r6.pb.divC 8
  { x0b := r3.ab + pbf
    x1b := r4.ab + pbf
    x2b := r5.ab + pbf
    x3b := r5.bb + pbf
    x4b := r6.ab + pbf
    x5b := r6.db + pbf
    x6b := r6.bb + pbf
    x7b := r6.cb + pbf }

/-- The per-cell gradient of the un-divided pyramid sum: `evalVolumeHex_b`
with all eight accumulators seeded at zero. -/
def hexGrad (x0 x1 x2 x3 x4 x5 x6 x7 : V3) : Adj8 :=
  evalVolumeHex_b x0 x1 x2 x3 x4 x5 x6 x7 0 0 0 0 0 0 0 0

/-- `volpym_b` increments for pyramid 1, face `(x0, x1, x3, x2)`. -/
def hexG1 (x0 x1 x2 x3 x4 x5 x6 x7 : V3) : Adj5 :=
  pyrG x0 x1 x3 x2 (hexCentroid x0 x1 x2 x3 x4 x5 x6 x7)

/-- `volpym_b` increments for pyramid 2, face `(x0, x2, x4, x6)`. -/
def hexG2 (x0 x1 x2 x3 x4 x5 x6 x7 : V3) : Adj5 :=
  pyrG x0 x2 x4 x6 (hexCentroid x0 x1 x2 x3 x4 x5 x6 x7)

/-- `volpym_b` increments for pyramid 3, face `(x0, x4, x5, x1)`. -/
def hexG3 (x0 x1 x2 x3 x4 x5 x6 x7 : V3) : Adj5 :=
  pyrG x0 x4 x5 x1 (hexCentroid x0 x1 x2 x3 x4 x5 x6 x7)

/-- `volpym_b` increments for pyramid 4, face `(x1, x5, x7, x3)`. -/
def hexG4 (x0 x1 x2 x3 x4 x5 x6 x7 : V3) : Adj5 :=
  pyrG x1 x5 x7 x3 (hexCentroid x0 x1 x2 x3 x4 x5 x6 x7)

/-- `volpym_b` increments for pyramid 5, face `(x2, x3, x7, x6)`. -/
def hexG5 (x0 x1 x2 x3 x4 x5 x6 x7 : V3) : Adj5 :=
  pyrG x2 x3 x7 x6 (hexCentroid x0 x1 x2 x3 x4 x5 x6 x7)

/-- `volpym_b` increments for pyramid 6, face `(x4, x6, x7, x5)`. -/
def hexG6 (x0 x1 x2 x3 x4 x5 x6 x7 : V3) : Adj5 :=
  pyrG x4 x6 x7 x5 (hexCentroid x0 x1 x2 x3 x4 x5 x6 x7)

/-- Total centroid adjoint accumulated over the six `volpym_b` calls. -/
def hexPbSum (x0 x1 x2 x3 x4 x5 x6 x7 : V3) : V3 :=
  (hexG1 x0 x1 x2 x3 x4 x5 x6 x7).pb + (hexG2 x0 x1 x2 x3 x4 x5 x6 x7).pb +
    (hexG3 x0 x1 x2 x3 x4 x5 x6 x7).pb + (hexG4 x0 x1 x2 x3 x4 x5 x6 x7).pb +
    (hexG5 x0 x1 x2 x3 x4 x5 x6 x7).pb + (hexG6 x0 x1 x2 x3 x4 x5 x6 x7).pb

theorem hexGrad_x0b (x0 x1 x2 x3 x4 x5 x6 x7 : V3) (c : Fin 3) :
    ((hexGrad x0 x1 x2 x3 x4 x5 x6 x7).x0b).coord c =
      (hexG1 x0 x1 x2 x3 x4 x5 x6 x7).ab.coord c +
        (hexG2 x0 x1 x2 x3 x4 x5 x6 x7).ab.coord c +
        (hexG3 x0 x1 x2 x3 x4 x5 x6 x7).ab.coord c +
        (hexPbSum x0 x1 x2 x3 x4 x5 x6 x7).coord c / 8 := by
  simp only [hexGrad, evalVolumeHex_b, volpym_b_acc, hexG1, hexG2, hexG3, hexG4,
    hexG5, hexG6, hexPbSum, V3.coord_add, V3.coord_zero, V3.coord_divC]
  ring

theorem hexGrad_x1b (x0 x1 x2 x3 x4 x5 x6 x7 : V3) (c : Fin 3) :
    ((hexGrad x0 x1 x2 x3 x4 x5 x6 x7).x1b).coord c =
      (hexG1 x0 x1 x2 x3 x4 x5 x6 x7).bb.coord c +
        (hexG3 x0 x1 x2 x3 x4 x5 x6 x7).db.coord c +
        (hexG4 x0 x1 x2 x3 x4 x5 x6 x7).ab.coord c +
        (hexPbSum x0 x1 x2 x3 x4 x5 x6 x7).coord c / 8 := by
  simp only [hexGrad, evalVolumeHex_b, volpym_b_acc, hexG1, hexG2, hexG3, hexG4,
    hexG5, hexG6, hexPbSum, V3.coord_add, V3.coord_zero, V3.coord_divC]
  ring

theorem hexGrad_x2b (x0 x1 x2 x3 x4 x5 x6 x7 : V3) (c : Fin 3) :
    ((hexGrad x0 x1 x2 x3 x4 x5 x6 x7).x2b).coord c =
      (hexG1 x0 x1 x2 x3 x4 x5 x6 x7).db.coord c +
        (hexG2 x0 x1 x2 x3 x4 x5 x6 x7).bb.coord c +
        (hexG5 x0 x1 x2 x3 x4 x5 x6 x7).ab.coord c +
        (hexPbSum x0 x1 x2 x3 x4 x5 x6 x7).coord c / 8 := by
  simp only [hexGrad, evalVolumeHex_b, volpym_b_acc, hexG1, hexG2, hexG3, hexG4,
    hexG5, hexG6, hexPbSum, V3.coord_add, V3.coord_zero, V3.coord_divC]
  ring

theorem hexGrad_x3b (x0 x1 x2 x3 x4 x5 x6 x7 : V3) (c : Fin 3) :
    ((hexGrad x0 x1 x2 x3 x4 x5 x6 x7).x3b).coord c =
      (hexG1 x0 x1 x2 x3 x4 x5 x6 x7).cb.coord c +
        (hexG4 x0 x1 x2 x3 x4 x5 x6 x7).db.coord c +
        (hexG5 x0 x1 x2 x3 x4 x5 x6 x7).bb.coord c +
        (hexPbSum x0 x1 x2 x3 x4 x5 x6 x7).coord c / 8 := by
  simp only [hexGrad, evalVolumeHex_b, volpym_b_acc, hexG1, hexG2, hexG3, hexG4,
    hexG5, hexG6, hexPbSum, V3.coord_add, V3.coord_zero, V3.coord_divC]
  ring

theorem hexGrad_x4b (x0 x1 x2 x3 x4 x5 x6 x7 : V3) (c : Fin 3) :
    ((hexGrad x0 x1 x2 x3 x4 x5 x6 x7).x4b).coord c =
      (hexG2 x0 x1 x2 x3 x4 x5 x6 x7).cb.coord c +
        (hexG3 x0 x1 x2 x3 x4 x5 x6 x7).bb.coord c +
        (hexG6 x0 x1 x2 x3 x4 x5 x6 x7).ab.coord c +
        (hexPbSum x0 x1 x2 x3 x4 x5 x6 x7).coord c / 8 := by
  simp only [hexGrad, evalVolumeHex_b, volpym_b_acc, hexG1, hexG2, hexG3, hexG4,
    hexG5, hexG6, hexPbSum, V3.coord_add, V3.coord_zero, V3.coord_divC]
  ring

theorem hexGrad_x5b (x0 x1 x2 x3 x4 x5 x6 x7 : V3) (c : Fin 3) :
    ((hexGrad x0 x1 x2 x3 x4 x5 x6 x7).x5b).coord c =
      (hexG3 x0 x1 x2 x3 x4 x5 x6 x7).cb.coord c +
        (hexG4 x0 x1 x2 x3 x4 x5 x6 x7).bb.coord c +
        (hexG6 x0 x1 x2 x3 x4 x5 x6 x7).db.coord c +
        (hexPbSum x0 x1 x2 x3 x4 x5 x6 x7).coord c / 8 := by
  simp only [hexGrad, evalVolumeHex_b, volpym_b_acc, hexG1, hexG2, hexG3, hexG4,
    hexG5, hexG6, hexPbSum, V3.coord_add, V3.coord_zero, V3.coord_divC]
  ring

theorem hexGrad_x6b (x0 x1 x2 x3 x4 x5 x6 x7 : V3) (c : Fin 3) :
    ((hexGrad x0 x1 x2 x3 x4 x5 x6 x7).x6b).coord c =
      (hexG2 x0 x1 x2 x3 x4 x5 x6 x7).db.coord c +
        (hexG5 x0 x1 x2 x3 x4 x5 x6 x7).db.coord c +
        (hexG6 x0 x1 x2 x3 x4 x5 x6 x7).bb.coord c +
        (hexPbSum x0 x1 x2 x3 x4 x5 x6 x7).coord c / 8 := by
  simp only [hexGrad, evalVolumeHex_b, volpym_b_acc, hexG1, hexG2, hexG3, hexG4,
    hexG5, hexG6, hexPbSum, V3.coord_add, V3.coord_zero, V3.coord_divC]
  ring

theorem hexGrad_x7b (x0 x1 x2 x3 x4 x5 x6 x7 : V3) (c : Fin 3) :
    ((hexGrad x0 x1 x2 x3 x4 x5 x6 x7).x7b).coord c =
      (hexG4 x0 x1 x2 x3 x4 x5 x6 x7).cb.coord c +
        (hexG5 x0 x1 x2 x3 x4 x5 x6 x7).cb.coord c +
        (hexG6 x0 x1 x2 x3 x4 x5 x6 x7).cb.coord c +
        (hexPbSum x0 x1 x2 x3 x4 x5 x6 x7).coord c / 8 := by
  simp only [hexGrad, evalVolumeHex_b, volpym_b_acc, hexG1, hexG2, hexG3, hexG4,
    hexG5, hexG6, hexPbSum, V3.coord_add, V3.coord_zero, V3.coord_divC]
  ring

theorem volpym_shift_ap (a b c d p : V3) (i : Fin 3) (al rh : ℚ) :
    volpym (a.updCoord i (a.coord i + al)) b c d (p.updCoord i (p.coord i + rh)) =
      volpym a b c d p + al * (pyrG a b c d p).ab.coord i +
        rh * (pyrG a b c d p).pb.coord i := by
  have h := volpym_shift a b c d p i al 0 0 0 rh
  simpa [V3.updCoord_coord_self] using h

theorem volpym_shift_bp (a b c d p : V3) (i : Fin 3) (be rh : ℚ) :
    volpym a (b.updCoord i (b.coord i + be)) c d (p.updCoord i (p.coord i + rh)) =
      volpym a b c d p + be * (pyrG a b c d p).bb.coord i +
        rh * (pyrG a b c d p).pb.coord i := by
  have h := volpym_shift a b c d p i 0 be 0 0 rh
  simpa [V3.updCoord_coord_self] using h

theorem volpym_shift_cp (a b c d p : V3) (i : Fin 3) (ga rh : ℚ) :
    volpym a b (c.updCoord i (c.coord i + ga)) d (p.updCoord i (p.coord i + rh)) =
      volpym a b c d p + ga * (pyrG a b c d p).cb.coord i +
        rh * (pyrG a b c d p).pb.coord i := by
  have h := volpym_shift a b c d p i 0 0 ga 0 rh
  simpa [V3.updCoord_coord_self] using h

theorem volpym_shift_dp (a b c d p : V3) (i : Fin 3) (de rh : ℚ) :
    volpym a b c (d.updCoord i (d.coord i + de)) (p.updCoord i (p.coord i + rh)) =
      volpym a b c d p + de * (pyrG a b c d p).db.coord i +
        rh * (pyrG a b c d p).pb.coord i := by
  have h := volpym_shift a b c d p i 0 0 0 de rh
  simpa [V3.updCoord_coord_self] using h

theorem volpym_shift_p (a b c d p : V3) (i : Fin 3) (rh : ℚ) :
    volpym a b c d (p.updCoord i (p.coord i + rh)) =
      volpym a b c d p + rh * (pyrG a b c d p).pb.coord i := by
  have h := volpym_shift a b c d p i 0 0 0 0 rh
  simpa [V3.updCoord_coord_self] using h

theorem hexCentroid_shift0 (x0 x1 x2 x3 x4 x5 x6 x7 : V3) (c : Fin 3) (al : ℚ) :
    hexCentroid (x0.updCoord c (x0.coord c + al)) x1 x2 x3 x4 x5 x6 x7 =
      (hexCentroid x0 x1 x2 x3 x4 x5 x6 x7).updCoord c
        ((hexCentroid x0 x1 x2 x3 x4 x5 x6 x7).coord c + al / 8) := by
  fin_cases c <;>
    · simp only [hexCentroid, V3.updCoord, V3.coord, V3.mk.injEq]
      and_intros <;> ring_nf

theorem hexPyrSum_shift0 (x0 x1 x2 x3 x4 x5 x6 x7 : V3) (c : Fin 3) (al : ℚ) :
    hexPyrSum (x0.updCoord c (x0.coord c + al)) x1 x2 x3 x4 x5 x6 x7 =
      hexPyrSum x0 x1 x2 x3 x4 x5 x6 x7 +
        al * ((hexGrad x0 x1 x2 x3 x4 x5 x6 x7).x0b).coord c := by
  simp only [hexPyrSum]
  rw [hexCentroid_shift0, volpym_shift_ap, volpym_shift_ap, volpym_shift_ap]
  simp only [volpym_shift_p, hexGrad_x0b, hexG1, hexG2, hexG3, hexG4, hexG5,
    hexG6, hexPbSum, V3.coord_add]
  ring

theorem hexCentroid_shift1 (x0 x1 x2 x3 x4 x5 x6 x7 : V3) (c : Fin 3) (al : ℚ) :
    hexCentroid x0 (x1.updCoord c (x1.coord c + al)) x2 x3 x4 x5 x6 x7 =
      (hexCentroid x0 x1 x2 x3 x4 x5 x6 x7).updCoord c
        ((hexCentroid x0 x1 x2 x3 x4 x5 x6 x7).coord c + al / 8) := by
  fin_cases c <;>
    · simp only [hexCentroid, V3.updCoord, V3.coord, V3.mk.injEq]
      and_intros <;> ring_nf

theorem hexCentroid_shift2 (x0 x1 x2 x3 x4 x5 x6 x7 : V3) (c : Fin 3) (al : ℚ) :
    hexCentroid x0 x1 (x2.updCoord c (x2.coord c + al)) x3 x4 x5 x6 x7 =
      (hexCentroid x0 x1 x2 x3 x4 x5 x6 x7).updCoord c
        ((hexCentroid x0 x1 x2 x3 x4 x5 x6 x7).coord c + al / 8) := by
  fin_cases c <;>
    · simp only [hexCentroid, V3.updCoord, V3.coord, V3.mk.injEq]
      and_intros <;> ring_nf

theorem hexCentroid_shift3 (x0 x1 x2 x3 x4 x5 x6 x7 : V3) (c : Fin 3) (al : ℚ) :
    hexCentroid x0 x1 x2 (x3.updCoord c (x3.coord c + al)) x4 x5 x6 x7 =
      (hexCentroid x0 x1 x2 x3 x4 x5 x6 x7).updCoord c
        ((hexCentroid x0 x1 x2 x3 x4 x5 x6 x7).coord c + al / 8) := by
  fin_cases c <;>
    · simp only [hexCentroid, V3.updCoord, V3.coord, V3.mk.injEq]
      and_intros <;> ring_nf

theorem hexCentroid_shift4 (x0 x1 x2 x3 x4 x5 x6 x7 : V3) (c : Fin 3) (al : ℚ) :
    hexCentroid x0 x1 x2 x3 (x4.updCoord c (x4.coord c + al)) x5 x6 x7 =
      (hexCentroid x0 x1 x2 x3 x4 x5 x6 x7).updCoord c
        ((hexCentroid x0 x1 x2 x3 x4 x5 x6 x7).coord c + al / 8) := by
  fin_cases c <;>
    · simp only [hexCentroid, V3.updCoord, V3.coord, V3.mk.injEq]
      and_intros <;> ring_nf

theorem hexCentroid_shift5 (x0 x1 x2 x3 x4 x5 x6 x7 : V3) (c : Fin 3) (al : ℚ) :
    hexCentroid x0 x1 x2 x3 x4 (x5.updCoord c (x5.coord c + al)) x6 x7 =
      (hexCentroid x0 x1 x2 x3 x4 x5 x6 x7).updCoord c
        ((hexCentroid x0 x1 x2 x3 x4 x5 x6 x7).coord c + al / 8) := by
  fin_cases c <;>
    · simp only [hexCentroid, V3.updCoord, V3.coord, V3.mk.injEq]
      and_intros <;> ring_nf

theorem hexCentroid_shift6 (x0 x1 x2 x3 x4 x5 x6 x7 : V3) (c : Fin 3) (al : ℚ) :
    hexCentroid x0 x1 x2 x3 x4 x5 (x6.updCoord c (x6.coord c + al)) x7 =
      (hexCentroid x0 x1 x2 x3 x4 x5 x6 x7).updCoord c
        ((hexCentroid x0 x1 x2 x3 x4 x5 x6 x7).coord c + al / 8) := by
  fin_cases c <;>
    · simp only [hexCentroid, V3.updCoord, V3.coord, V3.mk.injEq]
      and_intros <;> ring_nf

theorem hexCentroid_shift7 (x0 x1 x2 x3 x4 x5 x6 x7 : V3) (c : Fin 3) (al : ℚ) :
    hexCentroid x0 x1 x2 x3 x4 x5 x6 (x7.updCoord c (x7.coord c + al)) =
      (hexCentroid x0 x1 x2 x3 x4 x5 x6 x7).updCoord c
        ((hexCentroid x0 x1 x2 x3 x4 x5 x6 x7).coord c + al / 8) := by
  fin_cases c <;>
    · simp only [hexCentroid, V3.updCoord, V3.coord, V3.mk.injEq]
      and_intros <;> ring_nf

theorem hexPyrSum_shift1 (x0 x1 x2 x3 x4 x5 x6 x7 : V3) (c : Fin 3) (al : ℚ) :
    hexPyrSum x0 (x1.updCoord c (x1.coord c + al)) x2 x3 x4 x5 x6 x7 =
      hexPyrSum x0 x1 x2 x3 x4 x5 x6 x7 +
        al * ((hexGrad x0 x1 x2 x3 x4 x5 x6 x7).x1b).coord c := by
  simp only [hexPyrSum]
  rw [hexCentroid_shift1, volpym_shift_bp, volpym_shift_dp, volpym_shift_ap]
  simp only [volpym_shift_p, hexGrad_x1b, hexG1, hexG2, hexG3, hexG4, hexG5,
    hexG6, hexPbSum, V3.coord_add]
  ring

theorem hexPyrSum_shift2 (x0 x1 x2 x3 x4 x5 x6 x7 : V3) (c : Fin 3) (al : ℚ) :
    hexPyrSum x0 x1 (x2.updCoord c (x2.coord c + al)) x3 x4 x5 x6 x7 =
      hexPyrSum x0 x1 x2 x3 x4 x5 x6 x7 +
        al * ((hexGrad x0 x1 x2 x3 x4 x5 x6 x7).x2b).coord c := by
  simp only [hexPyrSum]
  rw [hexCentroid_shift2, volpym_shift_dp, volpym_shift_bp, volpym_shift_ap]
  simp only [volpym_shift_p, hexGrad_x2b, hexG1, hexG2, hexG3, hexG4, hexG5,
    hexG6, hexPbSum, V3.coord_add]
  ring

theorem hexPyrSum_shift3 (x0 x1 x2 x3 x4 x5 x6 x7 : V3) (c : Fin 3) (al : ℚ) :
    hexPyrSum x0 x1 x2 (x3.updCoord c (x3.coord c + al)) x4 x5 x6 x7 =
      hexPyrSum x0 x1 x2 x3 x4 x5 x6 x7 +
        al * ((hexGrad x0 x1 x2 x3 x4 x5 x6 x7).x3b).coord c := by
  simp only [hexPyrSum]
  rw [hexCentroid_shift3, volpym_shift_cp, volpym_shift_dp, volpym_shift_bp]
  simp only [volpym_shift_p, hexGrad_x3b, hexG1, hexG2, hexG3, hexG4, hexG5,
    hexG6, hexPbSum, V3.coord_add]
  ring

theorem hexPyrSum_shift4 (x0 x1 x2 x3 x4 x5 x6 x7 : V3) (c : Fin 3) (al : ℚ) :
    hexPyrSum x0 x1 x2 x3 (x4.updCoord c (x4.coord c + al)) x5 x6 x7 =
      hexPyrSum x0 x1 x2 x3 x4 x5 x6 x7 +
        al * ((hexGrad x0 x1 x2 x3 x4 x5 x6 x7).x4b).coord c := by
  simp only [hexPyrSum]
  rw [hexCentroid_shift4, volpym_shift_cp, volpym_shift_bp, volpym_shift_ap]
  simp only [volpym_shift_p, hexGrad_x4b, hexG1, hexG2, hexG3, hexG4, hexG5,
    hexG6, hexPbSum, V3.coord_add]
  ring

theorem hexPyrSum_shift5 (x0 x1 x2 x3 x4 x5 x6 x7 : V3) (c : Fin 3) (al : ℚ) :
    hexPyrSum x0 x1 x2 x3 x4 (x5.updCoord c (x5.coord c + al)) x6 x7 =
      hexPyrSum x0 x1 x2 x3 x4 x5 x6 x7 +
        al * ((hexGrad x0 x1 x2 x3 x4 x5 x6 x7).x5b).coord c := by
  simp only [hexPyrSum]
  rw [hexCentroid_shift5, volpym_shift_cp, volpym_shift_bp, volpym_shift_dp]
  simp only [volpym_shift_p, hexGrad_x5b, hexG1, hexG2, hexG3, hexG4, hexG5,
    hexG6, hexPbSum, V3.coord_add]
  ring

theorem hexPyrSum_shift6 (x0 x1 x2 x3 x4 x5 x6 x7 : V3) (c : Fin 3) (al : ℚ) :
    hexPyrSum x0 x1 x2 x3 x4 x5 (x6.updCoord c (x6.coord c + al)) x7 =
      hexPyrSum x0 x1 x2 x3 x4 x5 x6 x7 +
        al * ((hexGrad x0 x1 x2 x3 x4 x5 x6 x7).x6b).coord c := by
  simp only [hexPyrSum]
  rw [hexCentroid_shift6, volpym_shift_dp, volpym_shift_dp, volpym_shift_bp]
  simp only [volpym_shift_p, hexGrad_x6b, hexG1, hexG2, hexG3, hexG4, hexG5,
    hexG6, hexPbSum, V3.coord_add]
  ring

theorem hexPyrSum_shift7 (x0 x1 x2 x3 x4 x5 x6 x7 : V3) (c : Fin 3) (al : ℚ) :
    hexPyrSum x0 x1 x2 x3 x4 x5 x6 (x7.updCoord c (x7.coord c + al)) =
      hexPyrSum x0 x1 x2 x3 x4 x5 x6 x7 +
        al * ((hexGrad x0 x1 x2 x3 x4 x5 x6 x7).x7b).coord c := by
  simp only [hexPyrSum]
  rw [hexCentroid_shift7, volpym_shift_cp, volpym_shift_cp, volpym_shift_cp]
  simp only [volpym_shift_p, hexGrad_x7b, hexG1, hexG2, hexG3, hexG4, hexG5,
    hexG6, hexPbSum, V3.coord_add]
  ring

/-- A function `ℚ → ℚ` that is globally affine with slope `g` has derivative
`g` everywhere (the derivative bridge used for the polynomial volume kernel,
stated over the exact rationals). -/
theorem hasDerivAt_of_affine {f : ℚ → ℚ} {g v : ℚ}
    (h : ∀ t, f t = f v + (t - v) * g) : HasDerivAt f g v := by
  have hf : f = fun t => (f v - v * g) + g * t := by
    funext t; rw [h t]; ring
  rw [hf]
  simpa using ((hasDerivAt_id v).const_mul g).const_add (f v - v * g)

/-- The un-divided pyramid sum with the 8 corners given as one indexed family. -/
def hexApply (h : Fin 8 → V3) : ℚ :=
  hexPyrSum (h 0) (h 1) (h 2) (h 3) (h 4) (h 5) (h 6) (h 7)

/-- The 8 per-corner gradients computed by `evalVolumeHex_b` (zero seeds),
as one indexed family. -/
def hexGradSlot (h : Fin 8 → V3) : Fin 8 → V3 := fun s =>
  let g := hexGrad (h 0) (h 1) (h 2) (h 3) (h 4) (h 5) (h 6) (h 7)
  match s with
  | 0 => g.x0b
  | 1 => g.x1b
  | 2 => g.x2b
  | 3 => g.x3b
  | 4 => g.x4b
  | 5 => g.x5b
  | 6 => g.x6b
  | 7 => g.x7b

theorem hexApply_shift (h : Fin 8 → V3) (s : Fin 8) (c : Fin 3) (al : ℚ) :
    hexApply (Function.update h s ((h s).updCoord c ((h s).coord c + al))) =
      hexApply h + al * (hexGradSlot h s).coord c := by
  fin_cases s <;>
    · simp [hexApply, hexGradSlot, Function.update_apply]
      first
        | exact hexPyrSum_shift0 (h 0) (h 1) (h 2) (h 3) (h 4) (h 5) (h 6) (h 7) c al
        | exact hexPyrSum_shift1 (h 0) (h 1) (h 2) (h 3) (h 4) (h 5) (h 6) (h 7) c al
        | exact hexPyrSum_shift2 (h 0) (h 1) (h 2) (h 3) (h 4) (h 5) (h 6) (h 7) c al
        | exact hexPyrSum_shift3 (h 0) (h 1) (h 2) (h 3) (h 4) (h 5) (h 6) (h 7) c al
        | exact hexPyrSum_shift4 (h 0) (h 1) (h 2) (h 3) (h 4) (h 5) (h 6) (h 7) c al
        | exact hexPyrSum_shift5 (h 0) (h 1) (h 2) (h 3) (h 4) (h 5) (h 6) (h 7) c al
        | exact hexPyrSum_shift6 (h 0) (h 1) (h 2) (h 3) (h 4) (h 5) (h 6) (h 7) c al
        | exact hexPyrSum_shift7 (h 0) (h 1) (h 2) (h 3) (h 4) (h 5) (h 6) (h 7) c al

/-- Changing one scalar coordinate of one corner: the un-divided pyramid sum
has exact derivative given by the corresponding `evalVolumeHex_b` adjoint. -/
theorem hexApply_hasDerivAt (h : Fin 8 → V3) (s : Fin 8) (c : Fin 3) :
    HasDerivAt (fun t => hexApply (Function.update h s ((h s).updCoord c t)))
      ((hexGradSlot h s).coord c) ((h s).coord c) := by
  apply hasDerivAt_of_affine
  intro t
  have hs := hexApply_shift h s c (t - (h s).coord c)
  have ht : (h s).coord c + (t - (h s).coord c) = t := by ring
  rw [ht] at hs
  rw [hs, V3.updCoord_coord_self, Function.update_eq_self]

/-! ## `VolumeConstraint.evalVolume` and `evalVolumeSens` over the
`nSpan x nChord x 2` grid of projected points -/

/-- The grid of projected points, `x = coords.reshape((nSpan, nChord, 2, 3))`:
`x i j k` is grid point `(i, j)` on layer `k` (`0` = up, `1` = down).  Indices
beyond `nSpan`/`nChord` are never read by the loops. -/
abbrev Grid := ℕ → ℕ → Fin 2 → V3

/-- The grid index of corner `s` of cell `(i, j)`, in the argument order of
the `evalVolumeHex` call inside `evalVolume`:
`x[i,j,0], x[i+1,j,0], x[i,j+1,0], x[i+1,j+1,0], x[i,j,1], ...`. -/
def cellCorner (i j : ℕ) : Fin 8 → ℕ × ℕ × Fin 2
  | 0 => (i, j, 0)
  | 1 => (i + 1, j, 0)
  | 2 => (i, j + 1, 0)
  | 3 => (i + 1, j + 1, 0)
  | 4 => (i, j, 1)
  | 5 => (i + 1, j, 1)
  | 6 => (i, j + 1, 1)
  | 7 => (i + 1, j + 1, 1)

/-- The 8 corner points of cell `(i, j)`. -/
def hexOf (x : Grid) (i j : ℕ) : Fin 8 → V3 := fun s =>
  x (cellCorner i j s).1 (cellCorner i j s).2.1 (cellCorner i j s).2.2

/-- The loop of `evalVolume` before the sign fix: sum of `evalVolumeHex` over
all `(nSpan - 1) x (nChord - 1)` cells (the Python loops `for j in
range(self.nChord-1): for i in range(self.nSpan-1): Volume += ...`). -/
def rawVolume (nSpan nChord : ℕ) (x : Grid) : ℚ :=
  ∑ j in Finset.range (nChord - 1), ∑ i in Finset.range (nSpan - 1),
    evalVolumeHex (x i j 0) (x (i+1) j 0) (x i (j+1) 0) (x (i+1) (j+1) 0)
      (x i j 1) (x (i+1) j 1) (x i (j+1) 1) (x (i+1) (j+1) 1)

/-- `VolumeConstraint.evalVolume`: sum the hex volumes; if the total is
negative, negate it and set the persistent `flipVolume` flag.  Takes the
current value of `self.flipVolume` and returns `(Volume, flipVolume')`. -/
def evalVolume (nSpan nChord : ℕ) (x : Grid) (flipVolume : Bool) : ℚ × Bool :=
  let Volume := rawVolume nSpan nChord x
  if Volume < 0 then (-Volume, true) else (Volume, flipVolume)

/-- `VolumeConstraint.evalVolumeSens`: loop over all cells accumulating the
`evalVolumeHex_b` adjoints into the shared array `xb` (grid points shared by
adjacent cells accumulate additively, rendered here as the sum of the
per-cell increments at each grid index), then `xb /= 6.0`, then negate if
`flipVolume` is set. -/
def evalVolumeSens (nSpan nChord : ℕ) (x : Grid) (flipVolume : Bool) :
    ℕ → ℕ → Fin 2 → Fin 3 → ℚ := fun a b k c =>
  let xb := (∑ j in Finset.range (nChord - 1), ∑ i in Finset.range (nSpan - 1),
    ∑ s : Fin 8, if cellCorner i j s = (a, b, k) then
      (hexGradSlot (hexOf x i j) s).coord c else 0) / 6
  if flipVolume then -xb else xb

/-- The grid after the assignment of `t` to scalar coordinate `c` of grid
point `(a, b, k)`. -/
def updGrid (x : Grid) (a b : ℕ) (k : Fin 2) (c : Fin 3) (t : ℚ) : Grid :=
  fun i j l => if (i, j, l) = (a, b, k) then (x a b k).updCoord c t else x i j l

theorem rawVolume_eq_hexApply (nSpan nChord : ℕ) (x : Grid) :
    rawVolume nSpan nChord x =
      ∑ j in Finset.range (nChord - 1), ∑ i in Finset.range (nSpan - 1),
        hexApply (hexOf x i j) / 6 :=
  rfl

theorem cellCorner_injective (i j : ℕ) (s s' : Fin 8)
    (h : cellCorner i j s = cellCorner i j s') : s = s' := by
  fin_cases s <;> fin_cases s' <;> simp_all [cellCorner, Prod.ext_iff]

theorem hexOf_updGrid_match (x : Grid) (a b : ℕ) (k : Fin 2) (c : Fin 3) (t : ℚ)
    (i j : ℕ) (s : Fin 8) (hs : cellCorner i j s = (a, b, k)) :
    hexOf (updGrid x a b k c t) i j =
      Function.update (hexOf x i j) s ((hexOf x i j s).updCoord c t) := by
  funext s'
  by_cases h : s' = s
  · subst h
    simp [hexOf, updGrid, hs]
  · have hne : cellCorner i j s' ≠ (a, b, k) := fun hc =>
      h (cellCorner_injective i j s' s (hc.trans hs.symm))
    simp [hexOf, updGrid, Function.update_noteq h, hne]

theorem hexOf_updGrid_nomatch (x : Grid) (a b : ℕ) (k : Fin 2) (c : Fin 3)
    (t : ℚ) (i j : ℕ) (h : ∀ s, cellCorner i j s ≠ (a, b, k)) :
    hexOf (updGrid x a b k c t) i j = hexOf x i j := by
  funext s'
  simp [hexOf, updGrid, h s']

/-- Derivative of the (pre-sign-fix) total volume with respect to one scalar
grid coordinate: the accumulated `evalVolumeHex_b` adjoints divided by 6. -/
theorem rawVolume_hasDerivAt (nSpan nChord : ℕ) (x : Grid) (a b : ℕ)
    (k : Fin 2) (c : Fin 3) :
    HasDerivAt (fun t => rawVolume nSpan nChord (updGrid x a b k c t))
      (∑ j in Finset.range (nChord - 1), ∑ i in Finset.range (nSpan - 1),
        (∑ s : Fin 8, if cellCorner i j s = (a, b, k) then
          (hexGradSlot (hexOf x i j) s).coord c else 0) / 6)
      ((x a b k).coord c) := by
  have hfun : (fun t => rawVolume nSpan nChord (updGrid x a b k c t)) =
      fun t => ∑ j in Finset.range (nChord - 1), ∑ i in Finset.range (nSpan - 1),
        hexApply (hexOf (updGrid x a b k c t) i j) / 6 := rfl
  rw [hfun]
  apply HasDerivAt.sum
  intro j _
  apply HasDerivAt.sum
  intro i _
  by_cases hmatch : ∃ s, cellCorner i j s = (a, b, k)
  · obtain ⟨s, hs⟩ := hmatch
    have hsum : (∑ s' : Fin 8, if cellCorner i j s' = (a, b, k) then
        (hexGradSlot (hexOf x i j) s').coord c else 0) =
          (hexGradSlot (hexOf x i j) s).coord c := by
      rw [Finset.sum_eq_single s]
      · rw [if_pos hs]
      · intro s' _ hne
        rw [if_neg fun hc =>
          hne (cellCorner_injective i j s' s (hc.trans hs.symm))]
      · intro habs
        exact absurd (Finset.mem_univ s) habs
    rw [hsum]
    have hrw : (fun t => hexApply (hexOf (updGrid x a b k c t) i j) / 6) =
        fun t => hexApply (Function.update (hexOf x i j) s
          ((hexOf x i j s).updCoord c t)) / 6 := by
      funext t
      rw [hexOf_updGrid_match x a b k c t i j s hs]
    rw [hrw]
    have hpt : hexOf x i j s = x a b k := by
      simp [hexOf, hs]
    rw [← hpt]
    exact (hexApply_hasDerivAt (hexOf x i j) s c).div_const 6
  · push_neg at hmatch
    have hsum : (∑ s' : Fin 8, if cellCorner i j s' = (a, b, k) then
        (hexGradSlot (hexOf x i j) s').coord c else 0) = 0 :=
      Finset.sum_eq_zero fun s' _ => if_neg (hmatch s')
    rw [hsum, zero_div]
    have hrw : (fun t => hexApply (hexOf (updGrid x a b k c t) i j) / 6) =
        fun _ => hexApply (hexOf x i j) / 6 := by
      funext t
      rw [hexOf_updGrid_nomatch x a b k c t i j hmatch]
    rw [hrw]
    exact hasDerivAt_const ((x a b k).coord c) (hexApply (hexOf x i j) / 6)

/-- C1: for every configuration of grid corner points (exact rational
coordinates), the gradient array returned by `evalVolumeSens` is the exact
analytic derivative of the (signed) volume summed by `evalVolume`, with
respect to every scalar coordinate.  First conjunct: each per-hexahedron
adjoint `evalVolumeHex_b` (zero seeds, `hexGradSlot`) returns exactly the
partial derivatives of the un-divided pyramid sum.  Second conjunct: over the
whole grid, the accumulated adjoint array divided by 6 and negated exactly
when the `flipVolume` flag is set (`evalVolumeSens`) is the derivative of the
correspondingly-signed total `rawVolume` at every scalar grid coordinate. -/
theorem evalVolumeSens_exact_gradient :
    (∀ (h : Fin 8 → V3) (s : Fin 8) (c : Fin 3),
      HasDerivAt (fun t => hexApply (Function.update h s ((h s).updCoord c t)))
        ((hexGradSlot h s).coord c) ((h s).coord c)) ∧
    (∀ (nSpan nChord : ℕ) (x : Grid) (flip : Bool) (a b : ℕ) (k : Fin 2)
        (c : Fin 3),
      HasDerivAt (fun t => (if flip then -1 else 1) *
          rawVolume nSpan nChord (updGrid x a b k c t))
        (evalVolumeSens nSpan nChord x flip a b k c) ((x a b k).coord c)) := by
  refine ⟨hexApply_hasDerivAt, ?_⟩
  intro nSpan nChord x flip a b k c
  have h := rawVolume_hasDerivAt nSpan nChord x a b k c
  cases flip
  · have hsens : evalVolumeSens nSpan nChord x false a b k c =
        ∑ j in Finset.range (nChord - 1), ∑ i in Finset.range (nSpan - 1),
          (∑ s : Fin 8, if cellCorner i j s = (a, b, k) then
            (hexGradSlot (hexOf x i j) s).coord c else 0) / 6 := by
      simp [evalVolumeSens, Finset.sum_div]
    rw [hsens]
    simpa using h
  · have hsens : evalVolumeSens nSpan nChord x true a b k c =
        -∑ j in Finset.range (nChord - 1), ∑ i in Finset.range (nSpan - 1),
          (∑ s : Fin 8, if cellCorner i j s = (a, b, k) then
            (hexGradSlot (hexOf x i j) s).coord c else 0) / 6 := by
      simp [evalVolumeSens, Finset.sum_div]
    rw [hsens]
    simpa using h.neg

/-- The `2 x 2 x 2` grid whose 8 read points are the corners of the unit
cube: up layer (`k = 0`) at `z = 1`, down layer (`k = 1`) at `z = 0`. -/
def unitCubeGrid : Grid := fun i j k =>
  ⟨(i : ℚ), (j : ℚ), if k = 0 then 1 else 0⟩

/-- C2 (bug-exhibiting evaluation): for the `2 x 2 x 2` grid whose 8 read
points are exactly the corners of the unit cube in the code ordering
`x0..x7`, `evalVolume` does NOT return `1`: the raw pyramid sum is `-5/6`
(the second `volpym` call traverses the face `(x0, x2, x4, x6)` in crossed
"bow-tie" order, so that pyramid contributes `0` instead of `-1`), whence the
reported volume is `5/6` with the flip flag set.  The second conjunct,
translation invariance of the gradient (the 8 per-corner `evalVolumeHex_b`
gradients sum to the zero vector), does hold. -/
theorem evalVolume_unit_cube :
    evalVolume 2 2 unitCubeGrid false = (5/6, true) ∧
    (hexGrad (unitCubeGrid 0 0 0) (unitCubeGrid 1 0 0) (unitCubeGrid 0 1 0)
          (unitCubeGrid 1 1 0) (unitCubeGrid 0 0 1) (unitCubeGrid 1 0 1)
          (unitCubeGrid 0 1 1) (unitCubeGrid 1 1 1)).x0b +
        (hexGrad (unitCubeGrid 0 0 0) (unitCubeGrid 1 0 0) (unitCubeGrid 0 1 0)
          (unitCubeGrid 1 1 0) (unitCubeGrid 0 0 1) (unitCubeGrid 1 0 1)
          (unitCubeGrid 0 1 1) (unitCubeGrid 1 1 1)).x1b +
        (hexGrad (unitCubeGrid 0 0 0) (unitCubeGrid 1 0 0) (unitCubeGrid 0 1 0)
          (unitCubeGrid 1 1 0) (unitCubeGrid 0 0 1) (unitCubeGrid 1 0 1)
          (unitCubeGrid 0 1 1) (unitCubeGrid 1 1 1)).x2b +
        (hexGrad (unitCubeGrid 0 0 0) (unitCubeGrid 1 0 0) (unitCubeGrid 0 1 0)
          (unitCubeGrid 1 1 0) (unitCubeGrid 0 0 1) (unitCubeGrid 1 0 1)
          (unitCubeGrid 0 1 1) (unitCubeGrid 1 1 1)).x3b +
        (hexGrad (unitCubeGrid 0 0 0) (unitCubeGrid 1 0 0) (unitCubeGrid 0 1 0)
          (unitCubeGrid 1 1 0) (unitCubeGrid 0 0 1) (unitCubeGrid 1 0 1)
          (unitCubeGrid 0 1 1) (unitCubeGrid 1 1 1)).x4b +
        (hexGrad (unitCubeGrid 0 0 0) (unitCubeGrid 1 0 0) (unitCubeGrid 0 1 0)
          (unitCubeGrid 1 1 0) (unitCubeGrid 0 0 1) (unitCubeGrid 1 0 1)
          (unitCubeGrid 0 1 1) (unitCubeGrid 1 1 1)).x5b +
        (hexGrad (unitCubeGrid 0 0 0) (unitCubeGrid 1 0 0) (unitCubeGrid 0 1 0)
          (unitCubeGrid 1 1 0) (unitCubeGrid 0 0 1) (unitCubeGrid 1 0 1)
          (unitCubeGrid 0 1 1) (unitCubeGrid 1 1 1)).x6b +
        (hexGrad (unitCubeGrid 0 0 0) (unitCubeGrid 1 0 0) (unitCubeGrid 0 1 0)
          (unitCubeGrid 1 1 0) (unitCubeGrid 0 0 1) (unitCubeGrid 1 0 1)
          (unitCubeGrid 0 1 1) (unitCubeGrid 1 1 1)).x7b = 0 := by
  constructor
  · norm_num [evalVolume, rawVolume, Finset.sum_range_one, evalVolumeHex,
      volpym, hexCentroid, unitCubeGrid, Prod.ext_iff]
  · norm_num [hexGrad, evalVolumeHex_b, volpym_b, hexCentroid, unitCubeGrid,
      V3.add_def, V3.zero_def, V3.x_zero, V3.y_zero, V3.z_zero, V3.divC,
      V3.mk.injEq]
    rfl

/-- Swap the up (`0`) and down (`1`) layer index. -/
def swapLayer : Fin 2 → Fin 2 := fun k => if k = 0 then 1 else 0

/-- Reverse the corner winding order of every cell: swap the up and down
layers of the whole grid. -/
def reflectGrid (x : Grid) : Grid := fun i j k => x i j (swapLayer k)

/-- A single-cell (`2 x 2`) grid on which the sign-reflection property fails:
its second pyramid (`volpym(x0, x2, x4, x6, p)`) is nonzero. -/
def windingGrid : Grid := fun i j k =>
  if k = 0 then
    if i = 0 then (if j = 0 then ⟨1, 2, 5⟩ else ⟨2, 7, 6⟩)
    else (if j = 0 then ⟨4, 1, 6⟩ else ⟨5, 6, 7⟩)
  else
    if i = 0 then (if j = 0 then ⟨1, 3, 1⟩ else ⟨3, 8, 1⟩)
    else (if j = 0 then ⟨5, 2, 0⟩ else ⟨6, 7, 2⟩)

/-- C3 (bug-exhibiting evaluation): swapping the up and down layers does NOT
negate the raw signed pyramid sum, and the reported volume of the reflected
configuration differs from the unreflected one.  The pyramid over the crossed
face `(x0, x2, x4, x6)` is invariant (not antisymmetric) under the layer
swap, so the reflected raw sum is `-raw + 2 * (that pyramid term) / 6`:
here `rawVolume = -3805/48` but the reflected raw sum is `3807/48`, and the
reported volumes are `3805/48` versus `3807/48`. -/
theorem evalVolume_reflect_not_negated :
    rawVolume 2 2 windingGrid = -3805/48 ∧
    rawVolume 2 2 (reflectGrid windingGrid) = 3807/48 ∧
    rawVolume 2 2 (reflectGrid windingGrid) ≠ -rawVolume 2 2 windingGrid ∧
    (evalVolume 2 2 (reflectGrid windingGrid) false).1 ≠
      (evalVolume 2 2 windingGrid false).1 := by
  have h1 : rawVolume 2 2 windingGrid = -3805/48 := by
    norm_num [rawVolume, Finset.sum_range_one, evalVolumeHex, volpym,
      hexCentroid, windingGrid]
  have h2 : rawVolume 2 2 (reflectGrid windingGrid) = 3807/48 := by
    norm_num [rawVolume, Finset.sum_range_one, evalVolumeHex, volpym,
      hexCentroid, windingGrid, reflectGrid, swapLayer]
  refine ⟨h1, h2, ?_, ?_⟩
  · rw [h1, h2]; norm_num
  · simp only [evalVolume, h1, h2]
    norm_num

/-! ## Distance-based constraints (`ThicknessConstraint`,
`ThicknessToChordConstraint`) -/

/-- A geometric point for the distance metrics (`numpy` shape-(3,) float
array inside `ThicknessConstraint`); `numpy.linalg.norm` / `geo_utils.eDist`
is the Euclidean norm, so these live in `EuclideanSpace ℝ (Fin 3)`. -/
abbrev E3 := EuclideanSpace ℝ (Fin 3)

/-- `geo_utils.eDist(p, q) = numpy.linalg.norm(p - q)`. -/
noncomputable def eDist (p q : E3) : ℝ := ‖p - q‖

/-- State of one `ThicknessConstraint` object.  `coords m` is row `m` of the
`(2 * nCon, 3)` coordinate array; pair `i` is rows `2 i` and `2 i + 1`. -/
structure ThicknessCon where
  nCon : ℕ
  coords : ℕ → E3
  scaled : Bool
  D0 : ℕ → ℝ

/-- `ThicknessConstraint.__init__`: store the coordinates and compute the
reference lengths `D0[i] = norm(coords[2 i] - coords[2 i + 1])` once, from
the initial coordinates.  (The `addPointSet` registration and the bound
bookkeeping do not affect the metric and are not modelled here.) -/
noncomputable def thicknessInit (coords : ℕ → E3) (nCon : ℕ) (scaled : Bool) :
    ThicknessCon :=
  { nCon := nCon
    coords := coords
    scaled := scaled
    D0 := fun i => ‖coords (2 * i) - coords (2 * i + 1)‖ }

/-- `ThicknessConstraint.evalFunctions`: pull the latest coordinates from the
parameterization (`newCoords = self.DVGeo.update(name)`), store
`D[i] = norm(coords[2 i] - coords[2 i + 1])`, divided by `D0[i]` when
`scaled`.  Returns the stored vector together with the updated object (whose
`D0` field is carried over unchanged — it is never recomputed). -/
noncomputable def ThicknessCon.evalFunctions (tc : ThicknessCon)
    (newCoords : ℕ → E3) : (ℕ → ℝ) × ThicknessCon :=
  (fun i =>
    if tc.scaled then ‖newCoords (2 * i) - newCoords (2 * i + 1)‖ / tc.D0 i
    else ‖newCoords (2 * i) - newCoords (2 * i + 1)‖,
   { tc with coords := newCoords })

/-- C4: for a `scaled=True` thickness constraint, the reference distances
`D0` are computed once at construction and never recomputed (any number of
`evalFunctions` calls leaves `D0` equal to the initial-coordinate formula);
each evaluation stores `norm(up - down) / D0[i]`; and an evaluation
immediately after construction, with the parameterization returning the same
coordinates and a nonzero initial distance at station `i`, stores exactly
`1`. -/
theorem thickness_scaled_reference_and_baseline (coords : ℕ → E3) (nCon i : ℕ)
    (hD : coords (2 * i) ≠ coords (2 * i + 1)) :
    (∀ newCoords : ℕ → E3,
      ((thicknessInit coords nCon true).evalFunctions newCoords).2.D0 i =
        ‖coords (2 * i) - coords (2 * i + 1)‖) ∧
    (∀ newCoords : ℕ → E3,
      ((thicknessInit coords nCon true).evalFunctions newCoords).1 i =
        ‖newCoords (2 * i) - newCoords (2 * i + 1)‖ /
          ‖coords (2 * i) - coords (2 * i + 1)‖) ∧
    ((thicknessInit coords nCon true).evalFunctions coords).1 i = 1 := by
  refine ⟨fun newCoords => rfl, fun newCoords => rfl, ?_⟩
  have hne : ‖coords (2 * i) - coords (2 * i + 1)‖ ≠ 0 := by
    simpa [sub_eq_zero] using hD
  simp [ThicknessCon.evalFunctions, thicknessInit, div_self hne]

/-- Concrete base point used by the witnesses: the origin. -/
noncomputable def wPt0 : E3 := 0

/-- Concrete point `(1, 0, 0)` used by the witnesses. -/
noncomputable def wPt1 : E3 := EuclideanSpace.single 0 1

/-- Witness coordinates: pair 0 is `(wPt1, wPt0)`, everything else at the
origin. -/
noncomputable def wThickCoords : ℕ → E3 := fun m => if m = 0 then wPt1 else wPt0

theorem wPt1_ne_wPt0 : wPt1 ≠ wPt0 := by
  intro h
  have h0 := congrFun h 0
  simp [wPt1, wPt0, EuclideanSpace.single] at h0

/-- Witness for C4: the scaled thickness constraint over the concrete pair
`((1,0,0), (0,0,0))`, evaluated immediately after construction, stores
exactly `1` at station `0`. -/
theorem thickness_scaled_baseline_witness :
    ((thicknessInit wThickCoords 1 true).evalFunctions wThickCoords).1 0 = 1 :=
  (thickness_scaled_reference_and_baseline wThickCoords 1 0
    (by simpa [wThickCoords] using wPt1_ne_wPt0)).2.2

/-- State of one `ThicknessToChordConstraint` object.  `coords m` is row `m`
of the `(4 * nCon, 3)` array; station `i` uses rows `4 i .. 4 i + 3`
(up, down, midpoint, chord point). -/
structure T2CCon where
  nCon : ℕ
  coords : ℕ → E3
  ToC0 : ℕ → ℝ

/-- `ThicknessToChordConstraint.__init__`: store the coordinates and compute
the reference ratios `ToC0[i] = t / c` once, from the initial coordinates,
with `t = norm(coords[4 i] - coords[4 i + 1])` and
`c = norm(coords[4 i + 2] - coords[4 i + 3])`. -/
noncomputable def t2cInit (coords : ℕ → E3) (nCon : ℕ) : T2CCon :=
  { nCon := nCon
    coords := coords
    ToC0 := fun i =>
      ‖coords (4 * i) - coords (4 * i + 1)‖ /
        ‖coords (4 * i + 2) - coords (4 * i + 3)‖ }

/-- `ThicknessToChordConstraint.evalFunctions`: pull the latest coordinates
and store `ToC[i] = (t / c) / ToC0[i]` — the absolute `t / c` is never
stored.  Returns the stored vector and the updated object (`ToC0` carried
over unchanged). -/
noncomputable def T2CCon.evalFunctions (tc : T2CCon) (newCoords : ℕ → E3) :
    (ℕ → ℝ) × T2CCon :=
  (fun i =>
    (eDist (newCoords (4 * i)) (newCoords (4 * i + 1)) /
        eDist (newCoords (4 * i + 2)) (newCoords (4 * i + 3))) / tc.ToC0 i,
   { tc with coords := newCoords })

/-- C5 (amended): every `evalFunctions` stores the normalized ratio
`(t/c) / ToC0[i]` with `ToC0` captured at construction and never recomputed,
and an evaluation immediately after construction with unchanged coordinates
returns exactly `1` at every station whose thickness **and** chord distances
are both nonzero.  (The claim as frozen only assumes a nondegenerate chord;
see the counterexample for a zero-thickness station.) -/
theorem t2c_normalized_and_baseline (coords : ℕ → E3) (nCon i : ℕ)
    (ht : coords (4 * i) ≠ coords (4 * i + 1))
    (hc : coords (4 * i + 2) ≠ coords (4 * i + 3)) :
    (∀ newCoords : ℕ → E3,
      ((t2cInit coords nCon).evalFunctions newCoords).2.ToC0 i =
        ‖coords (4 * i) - coords (4 * i + 1)‖ /
          ‖coords (4 * i + 2) - coords (4 * i + 3)‖) ∧
    (∀ newCoords : ℕ → E3,
      ((t2cInit coords nCon).evalFunctions newCoords).1 i =
        (eDist (newCoords (4 * i)) (newCoords (4 * i + 1)) /
            eDist (newCoords (4 * i + 2)) (newCoords (4 * i + 3))) /
          (‖coords (4 * i) - coords (4 * i + 1)‖ /
            ‖coords (4 * i + 2) - coords (4 * i + 3)‖)) ∧
    ((t2cInit coords nCon).evalFunctions coords).1 i = 1 := by
  refine ⟨fun newCoords => rfl, fun newCoords => rfl, ?_⟩
  have hT : ‖coords (4 * i) - coords (4 * i + 1)‖ ≠ 0 := by
    simpa [sub_eq_zero] using ht
  have hC : ‖coords (4 * i + 2) - coords (4 * i + 3)‖ ≠ 0 := by
    simpa [sub_eq_zero] using hc
  simp [T2CCon.evalFunctions, t2cInit, eDist, div_self, hT, hC,
    div_ne_zero hT hC]

/-- Concrete thickness-to-chord coordinates with a degenerate (zero
thickness) up/down pair but a unit chord: rows `0, 1, 2` at the origin and
row `3` at `(1, 0, 0)`. -/
noncomputable def wT2CDegenerate : ℕ → E3 := fun m => if m = 3 then wPt1 else 0

/-- C5 counterexample: at a station with nondegenerate chord (`c = 1`) but
zero thickness, the immediately-after-construction evaluation stores `0`,
not `1` (in exact arithmetic `0/0 = 0`; in the floating-point code it is a
NaN), refuting the claim as frozen, which only assumes nondegenerate chord
distances. -/
theorem t2c_baseline_counterexample :
    eDist (wT2CDegenerate (4 * 0 + 2)) (wT2CDegenerate (4 * 0 + 3)) ≠ 0 ∧
    ((t2cInit wT2CDegenerate 1).evalFunctions wT2CDegenerate).1 0 = 0 ∧
    ((t2cInit wT2CDegenerate 1).evalFunctions wT2CDegenerate).1 0 ≠ 1 := by
  have hchord : eDist (wT2CDegenerate (4 * 0 + 2)) (wT2CDegenerate (4 * 0 + 3)) = 1 := by
    simp [eDist, wT2CDegenerate, wPt1, EuclideanSpace.norm_single]
  have hval : ((t2cInit wT2CDegenerate 1).evalFunctions wT2CDegenerate).1 0 = 0 := by
    simp [T2CCon.evalFunctions, t2cInit, eDist, wT2CDegenerate]
  exact ⟨by rw [hchord]; norm_num, hval, by rw [hval]; norm_num⟩

/-- Concrete nondegenerate witness coordinates: up `(1,0,0)`, down origin,
midpoint origin, chord point `(1,0,0)`. -/
noncomputable def wT2CCoords : ℕ → E3 := fun m =>
  if m = 0 then wPt1 else if m = 3 then wPt1 else 0

/-- Witness for C5 (amended): at the concrete nondegenerate station the
immediately-after-construction evaluation stores exactly `1`. -/
theorem t2c_baseline_witness :
    ((t2cInit wT2CCoords 1).evalFunctions wT2CCoords).1 0 = 1 :=
  (t2c_normalized_and_baseline wT2CCoords 1 0
    (by simpa [wT2CCoords, wPt0] using wPt1_ne_wPt0)
    (by simpa [wT2CCoords, wPt0] using (wPt1_ne_wPt0 ∘ Eq.symm))).2.2

/-- Data carried by the `Error` raised on a failed projection: the failing
sample point and the projection direction (the values interpolated into the
message string). -/
structure ProjFail where
  point : E3
  direction : E3

/-- `DVConstraints.addThicknessToChordConstraints1D`, geometric core.  The
external pieces are abstracted: `X i` is the `i`-th sample returned by the
curve evaluation, and `proj p d` is `geo_utils.projectNode(p, d, p0, v1, v2)`
(`none` models `fail = True`).  The statement `chordDir /= norm(chordDir)`
divides the caller-held array in place; the first component of the result is
the content of that array after the call.  On the first failing sample the
call raises, carrying the point and the direction; otherwise it builds, per
sample, `up`, `down`, the midpoint `0.5 * (up + down)`, and the chord point
`midpoint + 0.1 * height * chordDir` with `height = norm(up - down)`. -/
noncomputable def addThicknessToChordConstraints1D (X : ℕ → E3) (nCon : ℕ)
    (axis chordDir : E3) (proj : E3 → E3 → Option (E3 × E3)) :
    E3 × Except ProjFail (ℕ → Fin 4 → E3) :=
  let cdUnit := ‖chordDir‖⁻¹ • chordDir
  (cdUnit,
    match (List.range nCon).find? (fun i => (proj (X i) axis).isNone) with
    | some i => .error ⟨X i, axis⟩
    | none => .ok fun i m =>
        match proj (X i) axis with
        | none => 0
        | some (up, down) =>
          match m with
          | 0 => up
          | 1 => down
          | 2 => (1/2 : ℝ) • (up + down)
          | 3 => (1/2 : ℝ) • (up + down) +
              ((1/10 : ℝ) * ‖up - down‖) • cdUnit)

/-- C9: for every sample whose projection succeeds (in a call that
completes), the third stored point is the midpoint of the up/down pair, the
fourth is that midpoint plus `0.1 * norm(up - down)` times the unit vector
along the caller-supplied chord direction, and hence the chord length
entering the ratio is exactly 10% of the local thickness at construction
(for a nonzero `chordDir`). -/
theorem t2c_chord_point_construction (X : ℕ → E3) (nCon : ℕ)
    (axis chordDir : E3) (proj : E3 → E3 → Option (E3 × E3))
    (coords : ℕ → Fin 4 → E3)
    (hok : (addThicknessToChordConstraints1D X nCon axis chordDir proj).2 =
      .ok coords)
    (i : ℕ) (up down : E3) (hp : proj (X i) axis = some (up, down)) :
    coords i 2 = (1/2 : ℝ) • (up + down) ∧
    coords i 3 = (1/2 : ℝ) • (up + down) +
      ((1/10 : ℝ) * ‖up - down‖) • (‖chordDir‖⁻¹ • chordDir) ∧
    (chordDir ≠ 0 →
      eDist (coords i 2) (coords i 3) = (1/10 : ℝ) * ‖up - down‖) := by
  unfold addThicknessToChordConstraints1D at hok
  rcases hfind : (List.range nCon).find? (fun i => (proj (X i) axis).isNone) with
    _ | i0
  · rw [hfind] at hok
    simp only [Except.ok.injEq] at hok
    subst hok
    refine ⟨by simp only [hp], by simp only [hp], ?_⟩
    intro hcd
    have hunit : ‖(‖chordDir‖⁻¹ • chordDir : E3)‖ = 1 := by
      rw [norm_smul, Real.norm_eq_abs,
        abs_of_nonneg (inv_nonneg.mpr (norm_nonneg _))]
      exact inv_mul_cancel₀ (norm_ne_zero_iff.mpr hcd)
    simp only [hp, eDist]
    rw [show ((1/2 : ℝ) • (up + down) -
        ((1/2 : ℝ) • (up + down) +
          ((1/10 : ℝ) * ‖up - down‖) • (‖chordDir‖⁻¹ • chordDir))) =
        -(((1/10 : ℝ) * ‖up - down‖) • (‖chordDir‖⁻¹ • chordDir)) by abel]
    rw [norm_neg, norm_smul, hunit, mul_one, Real.norm_eq_abs,
      abs_of_nonneg (by positivity : (0:ℝ) ≤ (1/10 : ℝ) * ‖up - down‖)]
  · rw [hfind] at hok
    exact absurd hok (by simp)

/-- The always-succeeding concrete projector used by the witnesses: every
sample projects to the pair `((1,0,0), origin)`. -/
noncomputable def wProj : E3 → E3 → Option (E3 × E3) := fun _ _ => some (wPt1, 0)

/-- The coordinate table built by the witness call. -/
noncomputable def wT2CBuild : ℕ → Fin 4 → E3 := fun i m =>
  match wProj ((fun _ => (0 : E3)) i) wPt1 with
  | none => 0
  | some (up, down) =>
    match m with
    | 0 => up
    | 1 => down
    | 2 => (1/2 : ℝ) • (up + down)
    | 3 => (1/2 : ℝ) • (up + down) +
        ((1/10 : ℝ) * ‖up - down‖) • (‖wPt1‖⁻¹ • wPt1)

/-- Witness for C9: in the concrete call the chord length at station 0 is
exactly 10% of the local thickness. -/
theorem t2c_chord_point_witness :
    eDist (wT2CBuild 0 2) (wT2CBuild 0 3) = (1/10 : ℝ) * ‖wPt1 - (0 : E3)‖ :=
  (t2c_chord_point_construction (fun _ => 0) 1 wPt1 wPt1 wProj wT2CBuild rfl
    0 wPt1 0 rfl).2.2 (by simpa [wPt0] using wPt1_ne_wPt0)

/-- C10: `addThicknessToChordConstraints1D` normalizes the caller-held
`chordDir` array in place: after the call the array holds the unit vector
`chordDir / norm(chordDir)`, and for any caller array that is not already a
unit vector this differs from the value the caller passed in (no per-call
working copy isolates the caller's array). -/
theorem t2c_chordDir_mutated_in_place (X : ℕ → E3) (nCon : ℕ)
    (axis chordDir : E3) (proj : E3 → E3 → Option (E3 × E3)) :
    (addThicknessToChordConstraints1D X nCon axis chordDir proj).1 =
      ‖chordDir‖⁻¹ • chordDir ∧
    (chordDir ≠ 0 → ‖chordDir‖ ≠ 1 →
      (addThicknessToChordConstraints1D X nCon axis chordDir proj).1 ≠
        chordDir) := by
  refine ⟨rfl, fun hcd hne heq => ?_⟩
  have hfirst : (addThicknessToChordConstraints1D X nCon axis chordDir proj).1 =
      ‖chordDir‖⁻¹ • chordDir := rfl
  rw [hfirst] at heq
  have h1 : ‖chordDir‖⁻¹ * ‖chordDir‖ = ‖chordDir‖ := by
    simpa [norm_smul, Real.norm_eq_abs,
      abs_of_nonneg (inv_nonneg.mpr (norm_nonneg _))] using congrArg norm heq
  rw [inv_mul_cancel₀ (norm_ne_zero_iff.mpr hcd)] at h1
  exact hne h1.symm

/-- Witness for C10: with the concrete caller array `2 * (1,0,0)` (norm 2),
the post-call array content differs from the passed-in array. -/
theorem t2c_chordDir_mutated_witness :
    (addThicknessToChordConstraints1D (fun _ => 0) 1 wPt1 ((2 : ℝ) • wPt1)
        wProj).1 ≠ (2 : ℝ) • wPt1 := by
  refine (t2c_chordDir_mutated_in_place (fun _ => 0) 1 wPt1 ((2 : ℝ) • wPt1)
    wProj).2 ?_ ?_
  · exact smul_ne_zero two_ne_zero (by simpa [wPt0] using wPt1_ne_wPt0)
  · rw [norm_smul, wPt1, EuclideanSpace.norm_single]
    norm_num

/-! ## `LeTeConstraint._finalize` -/

/-- One entry of `DVGeo.DV_listLocal`: a named group of local shape
variables.  `coefList` holds the global coefficient indices `temp[k][0]`
(only column 0 of the coefficient list is read by `_finalize`), `nVal` the
number of design variables of the group. -/
structure LocalDV where
  key : String
  coefList : List ℕ
  nVal : ℕ
deriving DecidableEq

/-- The inner `for k in range(len(temp))` search of `_finalize`: repeatedly
overwrite `up = k` on a match, so the LAST matching position wins; `none`
models the sentinel `None`. -/
def findLast (temp : List ℕ) (target : ℕ) : Option ℕ :=
  temp.enum.foldl (fun acc kv => if kv.2 = target then some kv.1 else acc) none

/-- The `cons` list built for one group: for each pair index `j`, the
positions `(up, down)` of both pair indices in the group's coefficient list,
kept only when both were found (`if up is not None and down is not None`). -/
def matchedPairs (temp : List ℕ) (indSetA indSetB : List ℕ) : List (ℕ × ℕ) :=
  (List.range indSetA.length).filterMap fun j =>
    match findLast temp (indSetA.getD j 0), findLast temp (indSetB.getD j 0) with
    | some up, some down => some (up, down)
    | _, _ => none

/-- One Jacobian row: `jacobian[i, cons[i][0]] = 1.0` and
`jacobian[i, cons[i][1]] = 1.0` on an `lil_matrix` row of zeros. -/
def rowOf (ndv up down : ℕ) : List ℚ :=
  (List.range ndv).map fun col => if col = up ∨ col = down then 1 else 0

/-- The state mutated by `LeTeConstraint._finalize`: the running constraint
count, the group keys with at least one row, the per-key Jacobian (rows of
the sparse matrix rendered densely), and the collected index pairs. -/
structure LeTeResult where
  ncon : ℕ
  wrt : List String
  jac : List (String × List (List ℚ))
  conIndices : List (ℕ × ℕ)
deriving DecidableEq

/-- The body of the `for key in self.DVGeo.DV_listLocal` loop of
`_finalize`: append the group's matched pairs; when at least one pair
matched, record the key in `wrt` and add the two-unit-entry Jacobian. -/
def leteStep (indSetA indSetB : List ℕ) (st : LeTeResult) (g : LocalDV) :
    LeTeResult :=
  let cons := matchedPairs g.coefList indSetA indSetB
  { ncon := st.ncon + cons.length
    wrt := if 0 < cons.length then st.wrt ++ [g.key] else st.wrt
    jac := if 0 < cons.length then
        st.jac ++ [(g.key, cons.map fun ud => rowOf g.nVal ud.1 ud.2)]
      else st.jac
    conIndices := st.conIndices ++ cons }

/-- `LeTeConstraint._finalize`, iterated over all shape-variable groups
starting from the freshly-initialized object. -/
def leteFinalize (dvList : List LocalDV) (indSetA indSetB : List ℕ) :
    LeTeResult :=
  dvList.foldl (leteStep indSetA indSetB) ⟨0, [], [], []⟩

theorem length_filterMap_eq_length_filter {α β : Type} (f : α → Option β)
    (l : List α) :
    (l.filterMap f).length = (l.filter fun a => (f a).isSome).length := by
  induction l with
  | nil => rfl
  | cons a l ih =>
    cases hf : f a <;>
      simp [List.filterMap_cons, List.filter_cons, hf, ih]

theorem matchedPairs_length (temp indSetA indSetB : List ℕ) :
    (matchedPairs temp indSetA indSetB).length =
      ((List.range indSetA.length).filter fun j =>
        (findLast temp (indSetA.getD j 0)).isSome &&
          (findLast temp (indSetB.getD j 0)).isSome).length := by
  rw [matchedPairs, length_filterMap_eq_length_filter]
  congr 1
  apply List.filter_congr
  intro j _
  cases findLast temp (indSetA.getD j 0) <;>
    cases findLast temp (indSetB.getD j 0) <;> simp

theorem leteFoldl_ncon (indSetA indSetB : List ℕ) (l : List LocalDV)
    (init : LeTeResult) :
    (l.foldl (leteStep indSetA indSetB) init).ncon =
      init.ncon +
        (l.map fun g => (matchedPairs g.coefList indSetA indSetB).length).sum := by
  induction l generalizing init with
  | nil => simp
  | cons g l ih =>
    rw [List.foldl_cons, ih]
    simp [leteStep, Nat.add_assoc]

theorem leteFoldl_jac (indSetA indSetB : List ℕ) (l : List LocalDV)
    (init : LeTeResult) :
    (l.foldl (leteStep indSetA indSetB) init).jac =
      init.jac ++ (l.filterMap fun g =>
        if 0 < (matchedPairs g.coefList indSetA indSetB).length then
          some (g.key, (matchedPairs g.coefList indSetA indSetB).map fun ud =>
            rowOf g.nVal ud.1 ud.2)
        else none) := by
  induction l generalizing init with
  | nil => simp
  | cons g l ih =>
    rw [List.foldl_cons, ih, List.filterMap_cons]
    by_cases h : 0 < (matchedPairs g.coefList indSetA indSetB).length
    · simp [leteStep, h, List.append_assoc]
    · simp [leteStep, h]

theorem leteFinalize_jac_mem (dvList : List LocalDV)
    (indSetA indSetB : List ℕ) (key : String) (rows : List (List ℚ))
    (h : (key, rows) ∈ (leteFinalize dvList indSetA indSetB).jac) :
    ∃ g ∈ dvList, g.key = key ∧
      0 < (matchedPairs g.coefList indSetA indSetB).length ∧
      rows = (matchedPairs g.coefList indSetA indSetB).map fun ud =>
        rowOf g.nVal ud.1 ud.2 := by
  rw [leteFinalize, leteFoldl_jac] at h
  simp only [List.nil_append] at h
  obtain ⟨g, hg, hfg⟩ := List.mem_filterMap.mp h
  by_cases hpos : 0 < (matchedPairs g.coefList indSetA indSetB).length
  · rw [if_pos hpos] at hfg
    simp only [Option.some.injEq, Prod.mk.injEq] at hfg
    exact ⟨g, hg, hfg.1, hpos, hfg.2.symm⟩
  · rw [if_neg hpos] at hfg
    exact absurd hfg (by simp)

theorem rowOf_length (ndv up down : ℕ) : (rowOf ndv up down).length = ndv := by
  simp [rowOf]

theorem rowOf_getD (ndv up down col : ℕ) (h : col < ndv) :
    (rowOf ndv up down).getD col 0 =
      if col = up ∨ col = down then 1 else 0 := by
  rw [rowOf, List.getD_eq_getElem _ _ (by simpa using h)]
  simp

/-- C6: for one local shape-variable group `"g"` with coefficient indices
`[0,1,2,3]` and index pairs `(0,1)` and `(2,3)` (given as
`indSetA = [0,2]`, `indSetB = [1,3]`), `_finalize` produces a 2-row, 4-column
Jacobian with unit entries at columns `(0,1)` and `(2,3)` and zeros
elsewhere.  In general: the constraint count is the total number of matched
pairs over all groups (so a pair found in no group contributes no row, and
the loop is total — no error is raised); every Jacobian block comes from a
group in which at least one pair matched, with one `rowOf` row per matched
pair; each row has length `nVal`, entry `1` at the two matched columns and
`0` everywhere else. -/
theorem lete_finalize_jacobian :
    (leteFinalize [⟨"g", [0, 1, 2, 3], 4⟩] [0, 2] [1, 3] =
      ⟨2, ["g"], [("g", [[1, 1, 0, 0], [0, 0, 1, 1]])], [(0, 1), (2, 3)]⟩) ∧
    (∀ (dvList : List LocalDV) (indSetA indSetB : List ℕ),
      (leteFinalize dvList indSetA indSetB).ncon =
        (dvList.map fun g =>
          (matchedPairs g.coefList indSetA indSetB).length).sum) ∧
    (∀ temp indSetA indSetB : List ℕ,
      (matchedPairs temp indSetA indSetB).length =
        ((List.range indSetA.length).filter fun j =>
          (findLast temp (indSetA.getD j 0)).isSome &&
            (findLast temp (indSetB.getD j 0)).isSome).length) ∧
    (∀ (dvList : List LocalDV) (indSetA indSetB : List ℕ) (key : String)
        (rows : List (List ℚ)),
      (key, rows) ∈ (leteFinalize dvList indSetA indSetB).jac →
        ∃ g ∈ dvList, g.key = key ∧
          0 < (matchedPairs g.coefList indSetA indSetB).length ∧
          rows = (matchedPairs g.coefList indSetA indSetB).map fun ud =>
            rowOf g.nVal ud.1 ud.2) ∧
    (∀ ndv up down : ℕ, (rowOf ndv up down).length = ndv ∧
      ∀ col, col < ndv → (rowOf ndv up down).getD col 0 =
        if col = up ∨ col = down then 1 else 0) := by
  refine ⟨by decide, ?_, matchedPairs_length, leteFinalize_jac_mem, ?_⟩
  · intro dvList indSetA indSetB
    rw [leteFinalize, leteFoldl_ncon]
    simp
  · intro ndv up down
    exact ⟨rowOf_length ndv up down, fun col hc => rowOf_getD ndv up down col hc⟩

/-- Witness for C6: exercising the membership hypothesis of the Jacobian
provenance conjunct at the concrete scenario, and the column-bound hypothesis
of the row-entry conjunct. -/
theorem lete_finalize_jacobian_witness :
    (∃ g ∈ [(⟨"g", [0, 1, 2, 3], 4⟩ : LocalDV)], g.key = "g" ∧
      0 < (matchedPairs g.coefList [0, 2] [1, 3]).length ∧
      [[1, 1, 0, 0], [0, 0, 1, 1]] =
        (matchedPairs g.coefList [0, 2] [1, 3]).map fun ud =>
          rowOf g.nVal ud.1 ud.2) ∧
    (rowOf 4 0 1).getD 0 0 = 1 := by
  constructor
  · exact lete_finalize_jacobian.2.2.2.1 [⟨"g", [0, 1, 2, 3], 4⟩] [0, 2] [1, 3]
      "g" [[1, 1, 0, 0], [0, 0, 1, 1]] (by decide)
  · rw [(lete_finalize_jacobian.2.2.2.2 4 0 1).2 0 (by decide)]
    decide

/-! ## Projection failure handling in `addThicknessConstraints1D`,
`_generateIntersections`, `addThicknessConstraints2D`, `addVolumeConstraint` -/

/-- Componentwise subtraction of 3-vectors. -/
instance : Sub V3 := ⟨fun u v => ⟨u.x - v.x, u.y - v.y, u.z - v.z⟩⟩

/-- `numpy.cross` of two 3-vectors. -/
def V3.cross (u v : V3) : V3 :=
  ⟨u.y * v.z - u.z * v.y, u.z * v.x - u.x * v.z, u.x * v.y - u.y * v.x⟩

/-- Data carried by the `Error` raised on a failed projection in the
`DVConstraints` grid builders: the failing sample and the normal used. -/
structure ProjError where
  point : V3
  direction : V3
deriving DecidableEq

/-- The external `geo_utils.projectNode(point, direction, p0, v1, v2)`:
`none` models `fail = True`, `some (up, down)` a successful pair. -/
abbrev ProjT := V3 → V3 → Option (V3 × V3)

/-- The registry/parameterization state touched by the `add*Constraint`
calls: the named thickness and volume constraint sets, and the point-set
names registered with the external parameterization via
`DVGeo.addPointSet(coords, name)` (entries abstracted to their names). -/
structure DVConState where
  thickCon : List String
  volumeCon : List String
  pointSets : List String
deriving DecidableEq

/-- `DVConstraints.addThicknessConstraints1D`, control flow.  `X i` is the
`i`-th curve sample; the loop projects each sample along the fixed `axis`
(each sample exactly once, no retry) and raises on the first failure,
carrying the failing point and the axis; only after all `nCon` samples
succeed is the `ThicknessConstraint` built, which registers the point set
and is stored in the registry. -/
def addThicknessConstraints1D (st : DVConState) (X : ℕ → V3) (nCon : ℕ)
    (axis : V3) (proj : ProjT) (conName : String) :
    Except ProjError DVConState :=
  match (List.range nCon).find? (fun i => (proj (X i) axis).isNone) with
  | some i => .error ⟨X i, axis⟩
  | none => .ok { st with thickCon := st.thickCon ++ [conName],
                          pointSets := st.pointSets ++ [conName] }

/-- The normal estimate of `_generateIntersections` at grid node `(i, j)`:
cross product of the centered (one-sided at the boundary) finite differences
of the TFI grid `X` along the two grid directions. -/
def gridUpVec (X : ℕ → ℕ → V3) (nSpan nChord i j : ℕ) : V3 :=
  let uVec := if i = 0 then X (i+1) j - X i j
    else if i = nSpan - 1 then X i j - X (i-1) j
    else X (i+1) j - X (i-1) j
  let vVec := if j = 0 then X i (j+1) - X i j
    else if j = nChord - 1 then X i j - X i (j-1)
    else X i (j+1) - X i (j-1)
  V3.cross uVec vVec

/-- The nodes of the `for i in range(nSpan): for j in range(nChord)` loop,
in loop order. -/
def cellNodes (nSpan nChord : ℕ) : List (ℕ × ℕ) :=
  (List.range nSpan).flatMap fun i => (List.range nChord).map fun j => (i, j)

/-- `DVConstraints._generateIntersections`, control flow over an abstract
TFI grid `X` and projector `proj`: project every node along its estimated
normal; raise on the first failing node, carrying the node and the normal;
otherwise return the `(nSpan, nChord, 2)` array of up/down pairs. -/
def generateIntersections (X : ℕ → ℕ → V3) (nSpan nChord : ℕ) (proj : ProjT) :
    Except ProjError (ℕ → ℕ → Fin 2 → V3) :=
  match (cellNodes nSpan nChord).find? (fun ij =>
      (proj (X ij.1 ij.2) (gridUpVec X nSpan nChord ij.1 ij.2)).isNone) with
  | some ij => .error ⟨X ij.1 ij.2, gridUpVec X nSpan nChord ij.1 ij.2⟩
  | none => .ok fun i j k =>
      match proj (X i j) (gridUpVec X nSpan nChord i j) with
      | none => 0
      | some (up, down) => if k = 0 then up else down

/-- `DVConstraints.addThicknessConstraints2D`, control flow: a projection
error in `_generateIntersections` propagates before any constraint is
created or point set registered. -/
def addThicknessConstraints2D (st : DVConState) (X : ℕ → ℕ → V3)
    (nSpan nChord : ℕ) (proj : ProjT) (conName : String) :
    Except ProjError DVConState :=
  match generateIntersections X nSpan nChord proj with
  | .error e => .error e
  | .ok _ => .ok { st with thickCon := st.thickCon ++ [conName],
                           pointSets := st.pointSets ++ [conName] }

/-- `DVConstraints.addVolumeConstraint`, control flow: identical to the 2D
thickness case but registering into the volume registry. -/
def addVolumeConstraint (st : DVConState) (X : ℕ → ℕ → V3)
    (nSpan nChord : ℕ) (proj : ProjT) (conName : String) :
    Except ProjError DVConState :=
  match generateIntersections X nSpan nChord proj with
  | .error e => .error e
  | .ok _ => .ok { st with volumeCon := st.volumeCon ++ [conName],
                           pointSets := st.pointSets ++ [conName] }

/-- C7: in each of `addThicknessConstraints1D`, `addThicknessConstraints2D`
and `addVolumeConstraint`, if the projector fails on any sample then the
call returns the raised `Error` carrying the failing point's coordinates and
the projection direction — it is never an `.ok` result, so no constraint set
is added to the registry, no point set is registered with the external
parameterization, and no partial result is produced. -/
theorem add_constraints_projection_failure_fatal :
    (∀ (st : DVConState) (X : ℕ → V3) (nCon : ℕ) (axis : V3) (proj : ProjT)
        (conName : String),
      (∃ i, i < nCon ∧ proj (X i) axis = none) →
      ∃ i, i < nCon ∧ proj (X i) axis = none ∧
        addThicknessConstraints1D st X nCon axis proj conName =
          .error ⟨X i, axis⟩) ∧
    (∀ (st : DVConState) (X : ℕ → ℕ → V3) (nSpan nChord : ℕ) (proj : ProjT)
        (conName : String),
      (∃ i j, i < nSpan ∧ j < nChord ∧
        proj (X i j) (gridUpVec X nSpan nChord i j) = none) →
      ∃ i j, i < nSpan ∧ j < nChord ∧
        proj (X i j) (gridUpVec X nSpan nChord i j) = none ∧
        addThicknessConstraints2D st X nSpan nChord proj conName =
          .error ⟨X i j, gridUpVec X nSpan nChord i j⟩ ∧
        addVolumeConstraint st X nSpan nChord proj conName =
          .error ⟨X i j, gridUpVec X nSpan nChord i j⟩) := by
  constructor
  · intro st X nCon axis proj conName ⟨i, hi, hfail⟩
    have hsome : ((List.range nCon).find? fun i =>
        (proj (X i) axis).isNone).isSome := by
      rw [List.find?_isSome]
      exact ⟨i, List.mem_range.mpr hi, by simp [hfail]⟩
    obtain ⟨i0, hfind⟩ := Option.isSome_iff_exists.mp hsome
    have hp := List.find?_some hfind
    have hmem := List.mem_of_find?_eq_some hfind
    refine ⟨i0, List.mem_range.mp hmem, Option.isNone_iff_eq_none.mp hp, ?_⟩
    simp only [addThicknessConstraints1D, hfind]
  · intro st X nSpan nChord proj conName ⟨i, j, hi, hj, hfail⟩
    have hsome : ((cellNodes nSpan nChord).find? fun ij =>
        (proj (X ij.1 ij.2) (gridUpVec X nSpan nChord ij.1 ij.2)).isNone).isSome := by
      rw [List.find?_isSome]
      refine ⟨(i, j), ?_, by simp [hfail]⟩
      simp only [cellNodes, List.mem_flatMap, List.mem_map]
      exact ⟨i, List.mem_range.mpr hi, j, List.mem_range.mpr hj, rfl⟩
    obtain ⟨ij0, hfind⟩ := Option.isSome_iff_exists.mp hsome
    have hp := List.find?_some hfind
    have hmem := List.mem_of_find?_eq_some hfind
    simp only [cellNodes, List.mem_flatMap, List.mem_map] at hmem
    obtain ⟨i0, hi0, j0, hj0, hij⟩ := hmem
    subst hij
    refine ⟨i0, j0, List.mem_range.mp hi0, List.mem_range.mp hj0, ?_, ?_, ?_⟩
    · simpa using Option.isNone_iff_eq_none.mp hp
    · simp only [addThicknessConstraints2D, generateIntersections, hfind]
    · simp only [addVolumeConstraint, generateIntersections, hfind]

/-- The always-failing concrete projector. -/
def wProjFail : ProjT := fun _ _ => none

/-- Witness for C7: with a 1-sample call and the always-failing projector,
each of the three calls returns the error carrying the failing point and
direction. -/
theorem add_constraints_projection_failure_witness :
    (∃ i, i < 1 ∧ wProjFail ((fun _ => (⟨0, 0, 0⟩ : V3)) i) ⟨0, 0, 1⟩ = none ∧
      addThicknessConstraints1D ⟨[], [], []⟩ (fun _ => ⟨0, 0, 0⟩) 1 ⟨0, 0, 1⟩
          wProjFail "t" =
        .error ⟨(fun _ => (⟨0, 0, 0⟩ : V3)) i, ⟨0, 0, 1⟩⟩) ∧
    (∃ i j, i < 1 ∧ j < 1 ∧
      wProjFail ((fun _ _ => (⟨0, 0, 0⟩ : V3)) i j)
          (gridUpVec (fun _ _ => ⟨0, 0, 0⟩) 1 1 i j) = none ∧
      addThicknessConstraints2D ⟨[], [], []⟩ (fun _ _ => ⟨0, 0, 0⟩) 1 1
          wProjFail "t2" =
        .error ⟨(fun _ _ => (⟨0, 0, 0⟩ : V3)) i j,
          gridUpVec (fun _ _ => ⟨0, 0, 0⟩) 1 1 i j⟩ ∧
      addVolumeConstraint ⟨[], [], []⟩ (fun _ _ => ⟨0, 0, 0⟩) 1 1
          wProjFail "v" =
        .error ⟨(fun _ _ => (⟨0, 0, 0⟩ : V3)) i j,
          gridUpVec (fun _ _ => ⟨0, 0, 0⟩) 1 1 i j⟩) := by
  constructor
  · exact add_constraints_projection_failure_fatal.1 ⟨[], [], []⟩
      (fun _ => ⟨0, 0, 0⟩) 1 ⟨0, 0, 1⟩ wProjFail "t" ⟨0, by norm_num, rfl⟩
  · exact add_constraints_projection_failure_fatal.2 ⟨[], [], []⟩
      (fun _ _ => ⟨0, 0, 0⟩) 1 1 wProjFail "t2" ⟨0, 0, by norm_num, by norm_num, rfl⟩

/-! ## `DVConstraints._convertTo2D` and `_convertTo1D` -/

/-- A bound/scale input to the upcasting helpers: a Python scalar or a 1-D
`numpy` array (higher-rank inputs are not modelled). -/
inductive NpValue where
  | scalar (q : ℚ)
  | arr (l : List ℚ)
deriving DecidableEq

/-- The guard actually evaluated by `if numpy.isscalar:` — the truthiness of
the function object `numpy.isscalar` itself (it is never called), and a
function object is always truthy in Python. -/
def isscalarTruthy : Bool := true

/-- `value * numpy.ones(dim1)` under `numpy` broadcasting: a scalar fills
the vector; a length-`dim1` or length-1 array broadcasts; any other length
raises a broadcasting `ValueError` (`none`) — which is not the helper's own
shape `Error`. -/
def broadcastMulOnes1D (v : NpValue) (dim1 : ℕ) : Option (List ℚ) :=
  match v with
  | .scalar q => some (List.replicate dim1 q)
  | .arr l =>
    if l.length = dim1 then some l
    else if l.length = 1 then some (List.replicate dim1 (l.getD 0 0))
    else none

/-- `value * numpy.ones((dim1, dim2))` under `numpy` broadcasting for scalar
and 1-D inputs. -/
def broadcastMulOnes2D (v : NpValue) (dim1 dim2 : ℕ) :
    Option (List (List ℚ)) :=
  match v with
  | .scalar q => some (List.replicate dim1 (List.replicate dim2 q))
  | .arr l =>
    if l.length = dim2 then some (List.replicate dim1 l)
    else if l.length = 1 then
      some (List.replicate dim1 (List.replicate dim2 (l.getD 0 0)))
    else none

/-- The observable outcome of a `_convertTo*` helper: the scalar-upcast
branch (whose own multiply may still fail to broadcast), the else-branch
returning the input unchanged, or the else-branch's raised shape `Error`. -/
inductive ConvOutcome (α : Type) where
  | scalarBranch (res : Option α)
  | passthrough (v : NpValue)
  | shapeError
deriving DecidableEq

/-- `DVConstraints._convertTo1D`: `if numpy.isscalar:` then
`value * numpy.ones(dim1)`, else check `numpy.atleast_1d(value).shape[0]`
against `dim1` and raise the shape `Error` on mismatch. -/
def convertTo1D (value : NpValue) (dim1 : ℕ) : ConvOutcome (List ℚ) :=
  if isscalarTruthy then .scalarBranch (broadcastMulOnes1D value dim1)
  else
    let temp := match value with
      | .scalar q => [q]
      | .arr l => l
    if temp.length = dim1 then .passthrough value else .shapeError

/-- `DVConstraints._convertTo2D`: `if numpy.isscalar:` then
`value * numpy.ones((dim1, dim2))`, else check the `numpy.atleast_2d` shape
against `(dim1, dim2)` and raise the shape `Error` on mismatch. -/
def convertTo2D (value : NpValue) (dim1 dim2 : ℕ) :
    ConvOutcome (List (List ℚ)) :=
  if isscalarTruthy then .scalarBranch (broadcastMulOnes2D value dim1 dim2)
  else
    let temp := match value with
      | .scalar q => [[q]]
      | .arr l => [l]
    if temp.length = dim1 ∧ (temp.getD 0 []).length = dim2 then
      .passthrough value
    else .shapeError

/-- C8: the guard `if numpy.isscalar:` tests the truthiness of the function
object and is therefore always true, so for every input (scalar or array of
any shape) both helpers take the scalar branch `value * ones(...)`; the
shape-checking else branch and its `Error` are unreachable, and in
particular a wrongly-shaped non-scalar bound/scale input is never detected
by these helpers. -/
theorem convert_guard_always_true :
    isscalarTruthy = true ∧
    (∀ (value : NpValue) (dim1 : ℕ),
      convertTo1D value dim1 = .scalarBranch (broadcastMulOnes1D value dim1)) ∧
    (∀ (value : NpValue) (dim1 dim2 : ℕ),
      convertTo2D value dim1 dim2 =
        .scalarBranch (broadcastMulOnes2D value dim1 dim2)) ∧
    (∀ (value : NpValue) (dim1 : ℕ), convertTo1D value dim1 ≠ .shapeError) ∧
    (∀ (value : NpValue) (dim1 dim2 : ℕ),
      convertTo2D value dim1 dim2 ≠ .shapeError) ∧
    (∀ (l : List ℚ) (dim1 : ℕ), l.length ≠ dim1 →
      convertTo1D (.arr l) dim1 ≠ .shapeError) := by
  refine ⟨rfl, fun value dim1 => rfl, fun value dim1 dim2 => rfl,
    fun value dim1 => by simp [convertTo1D, isscalarTruthy],
    fun value dim1 dim2 => by simp [convertTo2D, isscalarTruthy],
    fun l dim1 _ => by simp [convertTo1D, isscalarTruthy]⟩

/-- Witness for C8: the wrongly-shaped array `[1, 2, 3]` upcast to length 2
does not trigger the helper's shape `Error`. -/
theorem convert_guard_witness :
    convertTo1D (.arr [1, 2, 3]) 2 ≠ .shapeError :=
  convert_guard_always_true.2.2.2.2.2 [1, 2, 3] 2 (by norm_num)
